import Mathlib

/-!
Verification development for the MySQL-ragLLM repository.

The Python sources (`llm_interaction.py`, `app.py`, `db/utils.py`) are shallowly
embedded below: pure string processing becomes functions on `List Char` / `String`,
the regular expressions used by the source are translated into explicit matchers
with the exact semantics of the patterns involved (anchors, word boundaries,
greedy whitespace, negative lookahead that cannot cross a newline), and the calls
to the database driver and to the generation backend are abstracted as oracles
(`SchemaOracle`, `GenEnv`, `StreamEnv`) whose answers parameterise the embedded
control flow.  Machine-facing behaviour (sockets, cursors) is out of scope; the
data-flow and string-level behaviour is modelled faithfully.
-/

/-- Python whitespace (`str.isspace`, `re` class `\s` on `str`): ASCII whitespace
plus the Unicode space/separator characters. -/
def pyWs (c : Char) : Bool :=
  c = ' ' || c = '\t' || c = '\n' || c = '\r' || c = '\x0b' || c = '\x0c' ||
  c = '\x1c' || c = '\x1d' || c = '\x1e' || c = '\x1f' || c = '\x85' || c = '\xa0' ||
  c.toNat = 0x1680 || (0x2000 ≤ c.toNat && c.toNat ≤ 0x200a) ||
  c.toNat = 0x2028 || c.toNat = 0x2029 ||
  c.toNat = 0x202f || c.toNat = 0x205f || c.toNat = 0x3000

/-- Python `str.lstrip()` (no argument): drop leading whitespace. -/
def lstripPy (s : List Char) : List Char := s.dropWhile pyWs

/-- Python `str.rstrip()` (no argument): drop trailing whitespace. -/
def rstripPy (s : List Char) : List Char := (s.reverse.dropWhile pyWs).reverse

/-- Python `str.strip()` (no argument). -/
def stripPy (s : List Char) : List Char := rstripPy (lstripPy s)

/-- Characters at which Python `str.splitlines` breaks a line. -/
def isLineBreak (c : Char) : Bool :=
  c = '\n' || c = '\r' || c = '\x0b' || c = '\x0c' ||
  c = '\x1c' || c = '\x1d' || c = '\x1e' || c = '\x85' || c.toNat = 0x2028 || c.toNat = 0x2029

/-- Worker for `splitlinesPy`; `acc` is the current line reversed. -/
def splitlinesAux : List Char → List Char → List (List Char)
  | [], acc => [acc.reverse]
  | c :: r, acc =>
    if c = '\r' ∧ r.head? = some '\n' then
      match r with
      | _ :: r2 => if r2.isEmpty then [acc.reverse] else acc.reverse :: splitlinesAux r2 []
      | [] => [acc.reverse]
    else if isLineBreak c then
      if r.isEmpty then [acc.reverse] else acc.reverse :: splitlinesAux r []
    else splitlinesAux r (c :: acc)

/-- Python `str.splitlines()`: split at line-break characters (`\r\n` counts once);
a trailing break produces no empty final line; the empty string has no lines. -/
def splitlinesPy (s : List Char) : List (List Char) :=
  if s.isEmpty then [] else splitlinesAux s []

/-- Model of `re.sub(r'^```sql\s*', '', s, flags=re.IGNORECASE)`: the pattern is
anchored at the start of the string, the three backticks are literal, the tag
letters match case-insensitively, and the trailing `\s*` greedily eats the
whitespace that follows. -/
def stripLeadFence (s : List Char) : List Char :=
  match s with
  | '`' :: '`' :: '`' :: c1 :: c2 :: c3 :: rest =>
    if c1.toLower = 's' && c2.toLower = 'q' && c3.toLower = 'l' then lstripPy rest
    else s
  | _ => s

/-- Model of `re.sub(r'\s*```$', '', s)`: without `re.MULTILINE`, `$` matches only
at the end of the string or just before a final newline, so the only match the
pattern can have ends at the terminal three backticks, preceded by the maximal
whitespace run; that span is deleted. -/
def stripTrailFence (s : List Char) : List Char :=
  match s.reverse with
  | '\n' :: '`' :: '`' :: '`' :: r => ((r.dropWhile pyWs).reverse) ++ ['\n']
  | '`' :: '`' :: '`' :: r => (r.dropWhile pyWs).reverse
  | _ => s

/-- Prefix of a line strictly before its first `--` occurrence; `none` when the
line contains no `--`. -/
def cutCmt : List Char → Option (List Char)
  | [] => none
  | c :: rest =>
    if c = '-' ∧ rest.head? = some '-' then some []
    else (cutCmt rest).map (fun p => c :: p)

/-- Model of `re.sub(r'\s*--.*$', '', line)` on a single line (no newline inside):
everything from the whitespace run preceding the first `--` to the end of the
line is removed; a line without `--` is unchanged. -/
def stripInlineComment (line : List Char) : List Char :=
  match cutCmt line with
  | some pre => rstripPy pre
  | none => line

/-- Does the list start with `-` `-`? (Python `str.startswith("--")`.) -/
def startsDashDash : List Char → Bool
  | c :: d :: _ => c = '-' && d = '-'
  | _ => false

/-- The comment-line filter loop of `clean_sql_query`: keep a line when its
stripped form is nonempty and does not start with `--`, then remove its trailing
inline comment and keep the result when that is still nonempty after stripping. -/
def cleanLines : List (List Char) → List (List Char)
  | [] => []
  | line :: rest =>
    let stripped := stripPy line
    if stripped ≠ [] ∧ startsDashDash stripped = false then
      let cleaned := stripInlineComment line
      if stripPy cleaned ≠ [] then cleaned :: cleanLines rest else cleanLines rest
    else cleanLines rest

/-- Worker for `collapseWs`; the flag records whether the previous character of
the input was whitespace (so the current run was already emitted as a space). -/
def collapseWsAux : Bool → List Char → List Char
  | _, [] => []
  | prevWs, c :: rest =>
    if pyWs c then
      if prevWs then collapseWsAux true rest else ' ' :: collapseWsAux true rest
    else c :: collapseWsAux false rest

/-- Model of `re.sub(r'\s+', ' ', s)`: each maximal whitespace run becomes one
space. -/
def collapseWs (s : List Char) : List Char := collapseWsAux false s

/-- Python `" ".join(lines)`. -/
def joinSpace : List (List Char) → List Char
  | [] => []
  | [l] => l
  | l :: ls => l ++ ' ' :: joinSpace ls

/-- Drop one trailing `;` (then strip), as the last step of `clean_sql_query`
(Python `endswith(';')` and `s[:-1].strip()`). -/
def dropTrailingSemi (s : List Char) : List Char :=
  if s.getLast? = some ';' then stripPy s.dropLast else s

/-- Embedding of `clean_sql_query` from `llm_interaction.py` on character lists:
strip a tagged leading fence, strip a trailing fence, drop comment lines and
trailing inline comments, join the remaining lines with spaces, collapse
whitespace runs, and drop a single trailing semicolon. -/
def cleanSqlQueryL (s0 : List Char) : List Char :=
  let s1 := stripPy (stripLeadFence s0)
  let s2 := stripPy (stripTrailFence s1)
  let joined := joinSpace (cleanLines (splitlinesPy s2))
  dropTrailingSemi (stripPy (collapseWs joined))

/-- `clean_sql_query` on `String`. -/
def clean_sql_query (s : String) : String := ⟨cleanSqlQueryL s.data⟩

/-- Word character for the word boundary `\b` of the source's patterns
(`re` class `\w`; the texts involved are ASCII, where `\w` is exactly
alphanumerics and underscore). -/
def isWordChar (c : Char) : Bool := c.isAlphanum || c = '_'

/-- A `\b` immediately before a word character holds exactly when the previous
character (if any) is not a word character. -/
def noBoundPrev : Option Char → Bool
  | none => true
  | some c => !isWordChar c

/-- A `\b` immediately after a word character holds exactly when the next
character (if any) is not a word character. -/
def wbAfter : List Char → Bool
  | [] => true
  | c :: _ => !isWordChar c

/-- Match a literal and return the rest of the input. -/
def litP : List Char → List Char → Option (List Char)
  | [], s => some s
  | k :: ks, c :: s => if c = k then litP ks s else none
  | _ :: _, [] => none

/-- Greedy `\s+` (followed in every use below by a non-whitespace literal). -/
def ws1 : List Char → Option (List Char)
  | c :: s => if pyWs c then some (s.dropWhile pyWs) else none
  | [] => none

/-- Try a positional matcher at every position, left to right; `prev` is the
character before the current position. -/
def searchPat (p : Option Char → List Char → Bool) : Option Char → List Char → Bool
  | prev, [] => p prev []
  | prev, c :: rest => p prev (c :: rest) || searchPat p (some c) rest

/-- Like `searchPat`, but refuses to advance past a newline: used for the
lookahead `.*\bword\b`, whose `.*` cannot match `\n`. -/
def searchNoNl (p : Option Char → List Char → Bool) : Option Char → List Char → Bool
  | prev, [] => p prev []
  | prev, c :: rest => p prev (c :: rest) || (c ≠ '\n' && searchNoNl p (some c) rest)

/-- Positional matcher for `\bk1\s+k2\b` (the shape of the drop/truncate
patterns). -/
def patKw2 (k1 k2 : List Char) (prev : Option Char) (s : List Char) : Bool :=
  noBoundPrev prev &&
    (match litP k1 s with
     | some r1 =>
       match ws1 r1 with
       | some r2 =>
         match litP k2 r2 with
         | some r3 => wbAfter r3
         | none => false
       | none => false
     | none => false)

/-- Positional matcher for `\bk\b`. -/
def patKw1 (k : List Char) (prev : Option Char) (s : List Char) : Bool :=
  noBoundPrev prev &&
    (match litP k s with
     | some r => wbAfter r
     | none => false)

/-- Positional matcher for `\bdelete\s+from\b(?!.*\bwhere\b)`. -/
def patDeleteFrom (prev : Option Char) (s : List Char) : Bool :=
  noBoundPrev prev &&
    (match litP "delete".data s with
     | some r1 =>
       match ws1 r1 with
       | some r2 =>
         match litP "from".data r2 with
         | some r3 => wbAfter r3 && !searchNoNl (patKw1 "where".data) (some 'm') r3
         | none => false
       | none => false
     | none => false)

/-- Positional matcher for `\bupdate\b(?!.*\bwhere\b)`. -/
def patUpdate (prev : Option Char) (s : List Char) : Bool :=
  noBoundPrev prev &&
    (match litP "update".data s with
     | some r => wbAfter r && !searchNoNl (patKw1 "where".data) (some 'e') r
     | none => false)

/-- Positional matcher for `\balter\s+table\b.*\bdrop\b`. -/
def patAlterDrop (prev : Option Char) (s : List Char) : Bool :=
  noBoundPrev prev &&
    (match litP "alter".data s with
     | some r1 =>
       match ws1 r1 with
       | some r2 =>
         match litP "table".data r2 with
         | some r3 => wbAfter r3 && searchNoNl (patKw1 "drop".data) (some 'e') r3
         | none => false
       | none => false
     | none => false)

/-- Embedding of `is_dangerous_sql` from `llm_interaction.py`: lowercase the
query, then search for any of the six dangerous patterns. -/
def is_dangerous_sql (s : String) : Bool :=
  let l := s.data.map Char.toLower
  searchPat (patKw2 "drop".data "database".data) none l ||
  searchPat (patKw2 "drop".data "table".data) none l ||
  searchPat (patKw2 "truncate".data "table".data) none l ||
  searchPat patDeleteFrom none l ||
  searchPat patAlterDrop none l ||
  searchPat patUpdate none l

/-- Everything after the first `:` (Python `s.split(':', 1)[1]`; total, returning
`[]` when there is no colon, a case the caller guards against). -/
def afterFirstColon : List Char → List Char
  | [] => []
  | ':' :: r => r
  | _ :: r => afterFirstColon r

/-- Python `str.strip()` on `String`. -/
def pyStrip (s : String) : String := ⟨stripPy s.data⟩

/-- Does `s` start with `pat`? (Python `str.startswith`; `String.startsWith`
itself does not reduce in the kernel, so the check is spelled out on the
character lists.) -/
def startsWithL : List Char → List Char → Bool
  | _, [] => true
  | [], _ :: _ => false
  | c :: s, k :: ks => c = k && startsWithL s ks

/-- `startsWithL` on `String`. -/
def strStartsWith (s pat : String) : Bool := startsWithL s.data pat.data

/-- The typed failures of `generate_sql` (each carries the message of the Python
exception raised at the corresponding point). -/
inductive SqlGenError where
  | connectionRequired
  | schemaUnavailable (msg : String)
  | backendError (msg : String)
  | ambiguousQuery (detail : String)
  | emptyGeneration
  | dangerousOperation
  deriving Repr, DecidableEq

/-- Message of the Python exception corresponding to each `SqlGenError`. -/
def SqlGenError.message : SqlGenError → String
  | .connectionRequired => "有效的数据库连接是必需的。"
  | .schemaUnavailable m => m
  | .backendError m => "LLM API调用失败: " ++ m
  | .ambiguousQuery d => "无法生成SQL: " ++ d
  | .emptyGeneration => "AI未能生成有效的SQL查询。"
  | .dangerousOperation => "生成的SQL查询包含危险操作，已被系统拒绝"

/-- Environment of one `generate_sql` call: whether the connection is live, the
outcome of obtaining a database-structure description (enhanced, falling back to
the basic one — collapsed into one result; the string is the structure text
embedded into the prompt), and the generation backend's raw reply. -/
structure GenEnv where
  connected : Bool
  schema : Except String String
  llm : Except String String

/-- The "basic structure also failed" sentinel string checked by `generate_sql`. -/
def structFailMsg : String := "数据库结构获取失败，请检查数据库连接"

/-- Embedding of `generate_sql` from `llm_interaction.py`: require a live
connection, obtain the database structure, call the backend, sanitize the raw
output with `clean_sql_query`, fail on the `ERROR:` sentinel (detail is the text
after the first colon, stripped), on an empty result, and on the
`is_dangerous_sql` safety filter; otherwise return the sanitized query. -/
def generate_sql (env : GenEnv) : Except SqlGenError String :=
  if env.connected = false then .error .connectionRequired
  else
    match env.schema with
    | .error m => .error (.schemaUnavailable m)
    | .ok dbs =>
      if dbs = "" ∨ dbs = structFailMsg then
        .error (.schemaUnavailable "无法获取有效的数据库结构信息。")
      else
        match env.llm with
        | .error m => .error (.backendError m)
        | .ok raw =>
          let sql := clean_sql_query raw
          if strStartsWith sql "ERROR:" then
            .error (.ambiguousQuery (pyStrip ⟨afterFirstColon sql.data⟩))
          else if sql = "" then .error .emptyGeneration
          else if is_dangerous_sql sql then .error .dangerousOperation
          else .ok sql

/-- A result row, as the dictionary cursor returns it (keys paired with their
values rendered as text). -/
abbrev Row := List (String × String)

/-- The staged events of the streaming endpoint (`type` and `data` of each
ndjson record emitted by `stream_query.generate`). -/
inductive SEv where
  | status (d : String)
  | sql (d : String)
  | results (d : List Row)
  | answer_chunk (d : String)
  | error (d : String)
  | done
  deriving Repr, DecidableEq

/-- The stages of the streaming pipeline that issue calls to collaborators. -/
inductive Stage where
  | connectStage
  | generateStage
  | executeStage
  | historyStage
  | explainStage
  deriving Repr, DecidableEq

/-- Environment of one `stream_query` request: the outcome of
`get_or_create_connection`, the `generate_sql` environment, the outcome of
executing a query, and the chunks the explanation backend streams
(`stream_generate_answer` catches its own failures and yields the error text as
an ordinary chunk, so the chunk list itself cannot fail). -/
structure StreamEnv where
  connect : Except String Unit
  gen : GenEnv
  execute : String → Except String (List Row)
  chunks : List String

/-- Result of a streamed request: the emitted events, the stages that were
invoked (in order), and the fault re-raised to the transport after the error
event, if any. -/
structure StreamOut where
  events : List SEv
  stages : List Stage
  propagated : Option String
  deriving Repr, DecidableEq

/-- Embedding of the generator inside `stream_query` (`app.py`): emit the
preparing status, connect, emit the parsing status, call `generate_sql`, emit
the query and the executing status, execute, emit processing status and
results, append to history (not shown here; see
`add_to_conversation_history`), emit the explaining status, one event per
explanation chunk, the done status and the `done` marker.  Any failure makes
the generator emit a single `error` event with the failure text and re-raise. -/
def stream_generate (env : StreamEnv) : StreamOut :=
  let ev0 := [SEv.status "准备中"]
  match env.connect with
  | .error m =>
    { events := ev0 ++ [SEv.error ("处理查询时出错: " ++ m)],
      stages := [.connectStage], propagated := some m }
  | .ok _ =>
    let ev1 := ev0 ++ [SEv.status "解析SQL"]
    match generate_sql env.gen with
    | .error ge =>
      { events := ev1 ++ [SEv.error ("处理查询时出错: " ++ ge.message)],
        stages := [.connectStage, .generateStage], propagated := some ge.message }
    | .ok q =>
      let ev2 := ev1 ++ [SEv.sql q, SEv.status "执行查询"]
      match env.execute q with
      | .error m =>
        { events := ev2 ++ [SEv.error ("处理查询时出错: " ++ m)],
          stages := [.connectStage, .generateStage, .executeStage],
          propagated := some m }
      | .ok rows =>
        { events := ev2 ++ [SEv.status "处理结果", SEv.results rows,
                            SEv.status "生成解释"] ++
                    env.chunks.map SEv.answer_chunk ++
                    [SEv.status "完成", SEv.done],
          stages := [.connectStage, .generateStage, .executeStage,
                     .historyStage, .explainStage],
          propagated := none }

/-- One conversation turn, `{"user": ..., "response": ...}`. -/
structure ConversationTurn where
  user : String
  response : String
  deriving Repr, DecidableEq

/-- Python `h[-n:]` for a list known to have at least `n` elements. -/
def lastN (n : Nat) (h : List ConversationTurn) : List ConversationTurn :=
  h.drop (h.length - n)

/-- Embedding of `add_to_conversation_history` from `app.py`: if the history
already has 10 or more entries keep only the last 9, then append the new turn. -/
def add_to_conversation_history (h : List ConversationTurn) (q r : String) :
    List ConversationTurn :=
  (if h.length ≥ 10 then lastN 9 h else h) ++ [{ user := q, response := r }]

/-- Embedding of the history update in `ai_interactive_shell`
(`llm_interaction.py`): append the new turn, then if the history exceeds 10
entries keep only the last 10. -/
def shellHistoryAppend (h : List ConversationTurn) (q r : String) :
    List ConversationTurn :=
  let h' := h ++ [{ user := q, response := r }]
  if h'.length > 10 then lastN 10 h' else h'

/-- A database connection config as the web API receives it. -/
structure DBConfig where
  host : String
  port : String
  username : String
  password : String
  database : Option String
  deriving Repr, DecidableEq

/-- The pooling fingerprint of a config: the record of every field except the
password (the source serialises this as
`json.dumps({k: v for k, v in config.items() if k != 'password'})`). -/
structure ConnKey where
  host : String
  port : String
  username : String
  database : Option String
  deriving Repr, DecidableEq

/-- Fingerprint of a config: every field except the password. -/
def connection_key (c : DBConfig) : ConnKey :=
  { host := c.host, port := c.port, username := c.username, database := c.database }

/-- Key of one pooled entry: the session id together with the config
fingerprint (the source's two-level dict `active_connections[session][key]` is
modelled as a map keyed by the pair). -/
abbrev PoolKey := String × ConnKey

/-- The pooling state: the stored entries (each a pool key with the identity of
the live connection object it holds) and the identity the next created
connection will get.  Connection objects themselves are abstracted to their
identity; their liveness check is an oracle. -/
structure AppState where
  entries : List (PoolKey × Nat)
  next : Nat
  deriving Repr, DecidableEq


/-- Embedding of `get_or_create_connection` from `app.py` (body under the
connection lock): if an entry for (session, fingerprint) exists and its
connection is still connected, return it; if it exists but is dead, delete it
and create, store and return a fresh connection; if absent, create, store and
return a fresh connection. -/
def get_or_create_connection (alive : Nat → Bool) (st : AppState) (sid : String)
    (cfg : DBConfig) : Nat × AppState :=
  let k : PoolKey := (sid, connection_key cfg)
  match st.entries.lookup k with
  | some c =>
    if alive c then (c, st)
    else
      (st.next,
       { entries := (st.entries.filter (fun p => p.1 ≠ k)) ++ [(k, st.next)],
         next := st.next + 1 })
  | none =>
    (st.next, { entries := st.entries ++ [(k, st.next)], next := st.next + 1 })

/-- Well-formedness of the pool: every stored connection identity predates the
next fresh identity. -/
def PoolWf (st : AppState) : Prop := ∀ p ∈ st.entries, p.2 < st.next

/-- One row of `DESCRIBE table` as the dictionary cursor returns it
(columns Field, Type, Null, Key, Default, Extra). -/
structure DescribeRow where
  field : String
  vtype : String
  nullFlag : String
  key : String
  defaultVal : Option String
  extra : String
  deriving Repr, DecidableEq

/-- The per-column record built by `get_enhanced_database_structure`. -/
structure ColumnInfo where
  name : String
  vtype : String
  nullable : Bool
  key : String
  defaultVal : Option String
  extra : String
  deriving Repr, DecidableEq

/-- The column record derived from a `DESCRIBE` row
(`nullable` is `Null == 'YES'`). -/
def columnInfoOfDescribe (r : DescribeRow) : ColumnInfo :=
  { name := r.field, vtype := r.vtype, nullable := r.nullFlag = "YES",
    key := r.key, defaultVal := r.defaultVal, extra := r.extra }

/-- A foreign-key record extracted from a `SHOW CREATE TABLE` statement. -/
structure FKInfo where
  column : String
  referenced_table : String
  referenced_column : String
  deriving Repr, DecidableEq

/-- An index record extracted from a `SHOW CREATE TABLE` statement. -/
structure IndexInfo where
  name : String
  columns : List String
  unique_ : Bool
  deriving Repr, DecidableEq

/-- One relationship edge of the snapshot. -/
structure RelEdge where
  from_table : String
  from_column : String
  to_table : String
  to_column : String
  deriving Repr, DecidableEq

/-- The per-table record of the enhanced snapshot. -/
structure TableInfo where
  name : String
  columns : List ColumnInfo
  primary_key : Option String
  foreign_keys : List FKInfo
  indexes : List IndexInfo
  row_count : Nat
  sample_data : List Row
  deriving Repr, DecidableEq

/-- The aggregate statistics of the snapshot. -/
structure DatabaseStats where
  table_count : Nat
  total_relationships : Nat
  largest_tables : List (String × Nat)
  deriving Repr, DecidableEq

/-- The diagnostics record built by `analyze_database_schema`. -/
structure SchemaAnalysis where
  schema_type : String
  potential_issues : List String
  optimization_suggestions : List String
  deriving Repr, DecidableEq

/-- The full enhanced snapshot. -/
structure DbInfo where
  database_name : String
  tables : List TableInfo
  relationships : List RelEdge
  database_stats : DatabaseStats
  schema_analysis : SchemaAnalysis
  deriving Repr, DecidableEq

/-- Try the pattern `PRIMARY KEY \(`([^`]+)`\)` at the head of the input: the
literal `PRIMARY KEY (` and a backtick, then the group (one or more
non-backtick characters, which therefore runs exactly to the next backtick),
then a backtick and a closing parenthesis. -/
def pkAt (s : List Char) : Option (List Char) :=
  match litP "PRIMARY KEY (`".data s with
  | none => none
  | some r =>
    let grp := r.takeWhile (fun c => c ≠ '`')
    match r.dropWhile (fun c => c ≠ '`') with
    | '`' :: ')' :: _ => if grp = [] then none else some grp
    | _ => none

/-- `re.search` of the primary-key pattern: try every position left to right. -/
def pkSearch : List Char → Option (List Char)
  | [] => none
  | c :: rest =>
    match pkAt (c :: rest) with
    | some g => some g
    | none => pkSearch rest

/-- Primary-key extraction of `get_enhanced_database_structure`:
`re.search(r'PRIMARY KEY \(`([^`]+)`\)', create_table)`, group 1. -/
def extractPK (createTable : String) : Option String :=
  (pkSearch createTable.data).map (fun g => (⟨g⟩ : String))

/-- Try the foreign-key pattern
`FOREIGN KEY \(`([^`]+)`\) REFERENCES `([^`]+)`\s*\(`([^`]+)`\)` at the head of
the input; on success also return the rest of the input after the match (for
`finditer`'s non-overlapping scan). -/
def fkAt (s : List Char) : Option (FKInfo × List Char) :=
  match litP "FOREIGN KEY (`".data s with
  | none => none
  | some r1 =>
    let col := r1.takeWhile (fun c => c ≠ '`')
    if col = [] then none else
    match litP "`) REFERENCES `".data (r1.dropWhile (fun c => c ≠ '`')) with
    | none => none
    | some r2 =>
      let tbl := r2.takeWhile (fun c => c ≠ '`')
      if tbl = [] then none else
      match r2.dropWhile (fun c => c ≠ '`') with
      | '`' :: r3 =>
        match litP "(`".data (r3.dropWhile pyWs) with
        | none => none
        | some r4 =>
          let rcol := r4.takeWhile (fun c => c ≠ '`')
          if rcol = [] then none else
          match r4.dropWhile (fun c => c ≠ '`') with
          | '`' :: ')' :: rest =>
            some ({ column := ⟨col⟩, referenced_table := ⟨tbl⟩,
                    referenced_column := ⟨rcol⟩ }, rest)
          | _ => none
      | _ => none

/-- Fuelled `finditer` scan for the foreign-key pattern (the fuel, the length of
the input, always suffices because each step consumes at least one character). -/
def fkIterAux : Nat → List Char → List FKInfo
  | 0, _ => []
  | _ + 1, [] => []
  | n + 1, c :: rest =>
    match fkAt (c :: rest) with
    | some (fk, after) => fk :: fkIterAux n after
    | none => fkIterAux n rest

/-- All foreign keys of a `SHOW CREATE TABLE` statement, in order
(`re.finditer` over the foreign-key pattern). -/
def extractFKs (createTable : String) : List FKInfo :=
  fkIterAux createTable.data.length createTable.data

/-- Fuelled worker for `splitOnL` (the fuel, one more than the input length,
always suffices for a nonempty delimiter). -/
def splitOnFuel (delim : List Char) : Nat → List Char → List Char → List (List Char)
  | 0, shards, acc => [acc.reverse ++ shards]
  | _ + 1, [], acc => [acc.reverse]
  | n + 1, c :: rest, acc =>
    if delim.isPrefixOf (c :: rest) then
      acc.reverse :: splitOnFuel delim n (List.drop delim.length (c :: rest)) []
    else splitOnFuel delim n rest (c :: acc)

/-- Python `str.split(sep)` for a nonempty separator: split at every
non-overlapping occurrence, scanning left to right. -/
def splitOnL (delim s : List Char) : List (List Char) :=
  splitOnFuel delim (s.length + 1) s []

/-- Try the index pattern `(UNIQUE )?KEY `([^`]+)`\s*\(`([^`]+)`\)` at the head
of the input (the optional group is attempted first, as the regex engine does);
on success also return the rest after the match. -/
def idxAt (s : List Char) : Option (IndexInfo × List Char) :=
  let core : List Char → Bool → Option (IndexInfo × List Char) := fun r uniq =>
    match litP "KEY `".data r with
    | none => none
    | some r1 =>
      let nm := r1.takeWhile (fun c => c ≠ '`')
      if nm = [] then none else
      match r1.dropWhile (fun c => c ≠ '`') with
      | '`' :: r2 =>
        match litP "(`".data (r2.dropWhile pyWs) with
        | none => none
        | some r3 =>
          let cols := r3.takeWhile (fun c => c ≠ '`')
          if cols = [] then none else
          match r3.dropWhile (fun c => c ≠ '`') with
          | '`' :: ')' :: rest =>
            some ({ name := ⟨nm⟩,
                    columns := (splitOnL "`,`".data cols).map (fun l => (⟨l⟩ : String)),
                    unique_ := uniq }, rest)
          | _ => none
      | _ => none
  match litP "UNIQUE ".data s with
  | some r => match core r true with
    | some res => some res
    | none => core s false
  | none => core s false

/-- Fuelled `finditer` scan for the index pattern. -/
def idxIterAux : Nat → List Char → List IndexInfo
  | 0, _ => []
  | _ + 1, [] => []
  | n + 1, c :: rest =>
    match idxAt (c :: rest) with
    | some (idx, after) => idx :: idxIterAux n after
    | none => idxIterAux n rest

/-- All secondary indexes of a `SHOW CREATE TABLE` statement, in order. -/
def extractIndexes (createTable : String) : List IndexInfo :=
  idxIterAux createTable.data.length createTable.data

/-- Number of relationship edges pointing at a given table name
(`references_count[to_table]` in `analyze_database_schema`). -/
def refCount (rels : List RelEdge) (t : String) : Nat :=
  (rels.filter (fun r => r.to_table = t)).length

/-- The candidate center tables of `analyze_database_schema`: the distinct
referenced table names whose incoming edge count exceeds one (iteration order
of the `defaultdict` is first-reference order). -/
def centerTables (rels : List RelEdge) : List String :=
  ((rels.map (fun r => r.to_table)).eraseDups).filter (fun t => refCount rels t > 1)

/-- Names of the tables whose extracted primary key is absent. -/
def tablesWithoutPk (tables : List TableInfo) : List String :=
  (tables.filter (fun t => t.primary_key.isNone)).map (fun t => t.name)

/-- The potential-issue message about tables lacking a primary key. -/
def noPkMsg (tables : List TableInfo) : String :=
  "以下表缺少主键: " ++ String.intercalate ", " (tablesWithoutPk tables)

/-- Names of the tables that appear in no relationship edge. -/
def isolatedTables (tables : List TableInfo) (rels : List RelEdge) : List String :=
  (tables.filter (fun t =>
    !(rels.any (fun r => r.from_table = t.name || r.to_table = t.name)))).map
    (fun t => t.name)

/-- The potential-issue message about isolated tables. -/
def isolatedMsg (tables : List TableInfo) (rels : List RelEdge) : String :=
  "以下表没有与其他表的关系: " ++ String.intercalate ", " (isolatedTables tables rels)

/-- The star/snowflake schema-shape label computed by
`analyze_database_schema`: with more than two tables, when some tables are
referenced by more than one edge and they number fewer than a third of all
tables (`len(center_tables) < len(tables) / 3` over the rationals, which the
source evaluates in floating point) the label is assigned; otherwise the type
stays unknown. -/
def schemaTypeLabel (tables : List TableInfo) (rels : List RelEdge) : String :=
  if tables.length > 2 then
    if centerTables rels ≠ [] ∧ 3 * (centerTables rels).length < tables.length then
      "星型模式或雪花模式"
    else "未知"
  else "未知"

/-- The under-indexed-large-table suggestions of `analyze_database_schema`. -/
def indexSuggestions (tables : List TableInfo) : List String :=
  (tables.filter (fun t => t.row_count > 10000 ∧ t.indexes.length < 2)).map
    (fun t =>
      "表 " ++ t.name ++ " 包含 " ++ toString t.row_count ++ " 行但只有 " ++
      toString t.indexes.length ++ " 个索引，考虑添加更多索引")

/-- Embedding of `analyze_database_schema` from `db/utils.py`: the heuristic
shape label, the missing-primary-key and isolated-table issues, and the
index suggestions. -/
def analyze_database_schema (tables : List TableInfo) (rels : List RelEdge) :
    SchemaAnalysis :=
  { schema_type := schemaTypeLabel tables rels,
    potential_issues :=
      (if tablesWithoutPk tables ≠ [] then [noPkMsg tables] else []) ++
      (if isolatedTables tables rels ≠ [] then [isolatedMsg tables rels] else []),
    optimization_suggestions := indexSuggestions tables }

/-- The answers the database connection gives to the queries the schema
functions issue.  A `.error` models the driver raising; `database` answers
`SELECT DATABASE()` (whose value is `NULL`, modelled `none`, when no database
is selected). -/
structure SchemaOracle where
  database : Except String (Option String)
  listTables : Except String (List String)
  showCreate : String → Except String String
  describeT : String → Except String (List DescribeRow)
  countRows : String → Except String Nat
  sampleRows : String → Except String (List Row)

/-- The string `get_database_structure_with_samples` returns when any of its
queries raises. -/
def basicFailMsg : String := "数据库结构获取失败，请检查数据库连接"

/-- Column line of the basic dump
(`  - name (type)` plus `[主键]`/`[外键]` markers). -/
def basicColDesc (c : DescribeRow) : String :=
  "  - " ++ c.field ++ " (" ++ c.vtype ++ ")" ++
  (if c.key = "PRI" then " [主键]" else "") ++
  (if c.key = "MUL" then " [外键]" else "")

/-- Python `str.rstrip(", ")`: drop trailing commas and spaces. -/
def rstripCommaSpace (s : String) : String :=
  ⟨(s.data.reverse.dropWhile (fun c => c = ',' || c = ' ')).reverse⟩

/-- Sample-data line of the basic dump: two spaces, `key: value` pairs joined
with `, `. -/
def basicSampleLine (row : Row) : String :=
  rstripCommaSpace ("  " ++ String.join (row.map (fun p => p.1 ++ ": " ++ p.2 ++ ", ")))

/-- The per-table block of the basic dump (lines later joined with newlines). -/
def basicTableBlock (t : String) (cols : List DescribeRow) (samples : List Row) :
    String :=
  String.intercalate "\n"
    (["\n表名: " ++ t, "\n列信息:"] ++ cols.map basicColDesc ++
     (if samples ≠ [] then ["\n示例数据:"] ++ samples.map basicSampleLine else []))

/-- Embedding of `get_database_structure_with_samples` from `db/utils.py`: on
any driver failure return `basicFailMsg`; with no database selected return the
corresponding message; otherwise format, per table, the column list (with
key-role markers) and up to three sample rows.  The `SHOW CREATE TABLE` result
is fetched but unused by this dump. -/
def get_database_structure_with_samples (o : SchemaOracle) : String :=
  match o.database with
  | .error _ => basicFailMsg
  | .ok none => "未选择数据库，请先选择数据库"
  | .ok (some db) =>
    match o.listTables with
    | .error _ => basicFailMsg
    | .ok tables =>
      match tables.mapM (fun t => do
          let _ ← o.showCreate t
          let cols ← o.describeT t
          let samples ← o.sampleRows t
          pure (basicTableBlock t cols samples)) with
      | .error _ => basicFailMsg
      | .ok blocks =>
        String.intercalate "\n" (("数据库名称: " ++ db ++ "\n") :: blocks)

/-- The per-table record builder of `get_enhanced_database_structure`: fetch
the creation statement and parse out the primary key, foreign keys and
indexes; fetch the column metadata; row count and sample rows are best-effort,
their failures are swallowed (`0` rows, no samples). -/
def buildTableInfo (o : SchemaOracle) (t : String) : Except String TableInfo := do
  let ct ← o.showCreate t
  let cols ← o.describeT t
  pure
    { name := t,
      columns := cols.map columnInfoOfDescribe,
      primary_key := extractPK ct,
      foreign_keys := extractFKs ct,
      indexes := extractIndexes ct,
      row_count := match o.countRows t with | .ok n => n | .error _ => 0,
      sample_data := match o.sampleRows t with | .ok s => s | .error _ => [] }

/-- Result of `get_enhanced_database_structure`: the snapshot dictionary, or a
plain string (the no-database message, or the fallback basic dump). -/
inductive StructureResult where
  | info (d : DbInfo)
  | text (s : String)
  deriving Repr, DecidableEq

/-- The body of `get_enhanced_database_structure`'s `try` block: resolve the
database name, list the tables, build every table record, aggregate the
relationship edges from the foreign keys, compute the statistics (three
largest non-empty tables by row count, stable descending sort) and the schema
diagnostics.  A driver failure anywhere here is an `.error`. -/
def enhancedAttempt (o : SchemaOracle) : Except String StructureResult := do
  let dbq ← o.database
  match dbq with
  | none => pure (.text "未选择数据库，请先选择数据库")
  | some dbName => do
    let tables ← o.listTables
    let tinfos ← tables.mapM (buildTableInfo o)
    let rels := tinfos.flatMap (fun ti =>
      ti.foreign_keys.map (fun fk =>
        { from_table := ti.name, from_column := fk.column,
          to_table := fk.referenced_table, to_column := fk.referenced_column }))
    let sorted := tinfos.mergeSort (fun a b => b.row_count ≤ a.row_count)
    let largest := ((sorted.take 3).filter (fun t => t.row_count > 0)).map
      (fun t => (t.name, t.row_count))
    pure (.info
      { database_name := dbName,
        tables := tinfos,
        relationships := rels,
        database_stats :=
          { table_count := tables.length,
            total_relationships := rels.length,
            largest_tables := largest },
        schema_analysis := analyze_database_schema tinfos rels })

/-- Embedding of `get_enhanced_database_structure` from `db/utils.py`: run the
enhanced snapshot attempt; if anything in it raises, fall back to the basic
structural dump instead of propagating. -/
def get_enhanced_database_structure (o : SchemaOracle) : StructureResult :=
  match enhancedAttempt o with
  | .ok r => r
  | .error _ => .text (get_database_structure_with_samples o)

/-- The character before the current position of a search that started with
previous character `prev` and has since consumed `a`. -/
def prevAt (prev : Option Char) (a : List Char) : Option Char :=
  match a.getLast? with
  | some c => some c
  | none => prev

/-- The last character of `a` (if any) is not a word character: the spec's
"word boundary" on the left of a keyword occurrence. -/
def LastNotWord (a : List Char) : Prop :=
  ∀ c, a.getLast? = some c → isWordChar c = false

/-- Spec-side destructive form "a database DROP" (claim C1): the text contains
the word `drop`, whitespace, and the word `database`, at word boundaries. -/
def SpecKw2In (k1 k2 : List Char) (l : List Char) : Prop :=
  ∃ a w r, l = a ++ k1 ++ w ++ k2 ++ r ∧ w ≠ [] ∧ (∀ c ∈ w, pyWs c = true) ∧
    LastNotWord a ∧ wbAfter r = true

/-- A word-boundary occurrence of `where` in `r`, where the text just before
`r` ends with the given keyword (so a boundary on the left needs a nonempty,
non-word-ending gap). -/
def WhereOccAfter (kw : List Char) (r : List Char) : Prop :=
  ∃ x y, r = x ++ "where".data ++ y ∧ LastNotWord (kw ++ x) ∧ wbAfter y = true

/-- Spec-side destructive form "DELETE FROM with no WHERE clause anywhere
after it" (claim C1). -/
def SpecDeleteFromNoWhere (l : List Char) : Prop :=
  ∃ a w r, l = a ++ "delete".data ++ w ++ "from".data ++ r ∧ w ≠ [] ∧
    (∀ c ∈ w, pyWs c = true) ∧ LastNotWord a ∧ wbAfter r = true ∧
    ¬ WhereOccAfter "from".data r

/-- Spec-side destructive form "UPDATE with no WHERE clause anywhere after it"
(claim C1). -/
def SpecUpdateNoWhere (l : List Char) : Prop :=
  ∃ a r, l = a ++ "update".data ++ r ∧ LastNotWord a ∧ wbAfter r = true ∧
    ¬ WhereOccAfter "update".data r

/-- Spec-side destructive form "ALTER TABLE ... DROP ..." (claim C1): the words
`alter table` followed, anywhere later, by the word `drop`. -/
def SpecAlterTableDrop (l : List Char) : Prop :=
  ∃ a w r, l = a ++ "alter".data ++ w ++ "table".data ++ r ∧ w ≠ [] ∧
    (∀ c ∈ w, pyWs c = true) ∧ LastNotWord a ∧ wbAfter r = true ∧
    ∃ x y, r = x ++ "drop".data ++ y ∧ LastNotWord ("table".data ++ x) ∧
      wbAfter y = true

/-- Spec-side destructive text (claim C1, applied to the lowercased sanitized
text): a database or table DROP, a table TRUNCATE, a DELETE FROM with no WHERE
anywhere after it, an ALTER TABLE ... DROP ..., or an UPDATE with no WHERE
anywhere after it. -/
def SpecDestructive (s : String) : Prop :=
  let l := s.data.map Char.toLower
  SpecKw2In "drop".data "database".data l ∨
  SpecKw2In "drop".data "table".data l ∨
  SpecKw2In "truncate".data "table".data l ∨
  SpecDeleteFromNoWhere l ∨
  SpecAlterTableDrop l ∨
  SpecUpdateNoWhere l

/-- Modelled from the spec (claim C9): the tables "referenced by more than one
other table" — for each table, the distinct `from_table` names of edges into
it, the table itself excluded, number more than one. -/
def SpecCenterTables (tables : List TableInfo) (rels : List RelEdge) : List String :=
  (tables.filter (fun t =>
    ((((rels.filter (fun r => r.to_table = t.name)).map
        (fun r => r.from_table)).eraseDups).filter (fun n => n ≠ t.name)).length > 1)).map
    (fun t => t.name)

/-- Modelled from the spec (claim C9): the claimed condition for the
star/snowflake label. -/
def SpecStarCondition (tables : List TableInfo) (rels : List RelEdge) : Prop :=
  SpecCenterTables tables rels ≠ [] ∧
  3 * (SpecCenterTables tables rels).length < tables.length

/-- Number of positions of `s` (including the final one) at which `pat` is a
prefix of the remaining input. -/
def countSub (pat : List Char) : List Char → Nat
  | [] => if pat.isEmpty then 1 else 0
  | c :: rest => (if pat.isPrefixOf (c :: rest) then 1 else 0) + countSub pat rest

/-- No two adjacent dashes anywhere in the list (so no `--` substring). -/
def DashFree (l : List Char) : Prop :=
  List.Chain' (fun a b => ¬(a = '-' ∧ b = '-')) l

lemma rstripPy_append_nonws (xs : List Char) (c : Char) (h : pyWs c = false) :
    rstripPy (xs ++ [c]) = xs ++ [c] := by
  unfold rstripPy
  rw [List.reverse_append]
  simp [List.dropWhile_cons, h]

lemma rstripPy_nil : rstripPy [] = [] := rfl

lemma lstripPy_cons_nonws (c : Char) (l : List Char) (h : pyWs c = false) :
    lstripPy (c :: l) = c :: l := by
  unfold lstripPy
  simp [List.dropWhile_cons, h]

lemma stripTrailFence_rev_fence (s r : List Char)
    (h : s.reverse = '`' :: '`' :: '`' :: r) :
    stripTrailFence s = (r.dropWhile pyWs).reverse := by
  unfold stripTrailFence
  rw [h]
  rfl

lemma stripLeadFence_tagged (t1 t2 t3 : Char) (rest : List Char)
    (h1 : t1.toLower = 's') (h2 : t2.toLower = 'q') (h3 : t3.toLower = 'l') :
    stripLeadFence ('`' :: '`' :: '`' :: t1 :: t2 :: t3 :: rest) = lstripPy rest := by
  unfold stripLeadFence
  simp [h1, h2, h3]

lemma rstripPy_cons_nonws (b : Char) (l : List Char) (h : pyWs b = false) :
    rstripPy (b :: l) = b :: rstripPy l := by
  unfold rstripPy
  rw [List.reverse_cons, List.dropWhile_append]
  by_cases hE : (List.dropWhile pyWs l.reverse).isEmpty
  · simp only [hE, if_true]
    simp only [List.isEmpty_iff] at hE
    rw [hE]
    simp [List.dropWhile_cons, h]
  · simp only [hE, if_false]
    simp [List.reverse_append]

lemma stripPy_cons_nonws (b : Char) (l : List Char) (h : pyWs b = false) :
    stripPy (b :: l) = b :: rstripPy l := by
  unfold stripPy
  rw [lstripPy_cons_nonws b l h, rstripPy_cons_nonws b l h]

/-- The two fence-stripping substitutions (each followed by a strip) on a
raw output of the shape ```` ```TAG\nBODY\n``` ````, with `TAG` a
case-insensitive `sql`, reduce it to the stripped body. -/
lemma fencePhase (t1 t2 t3 : Char) (body : List Char)
    (h1 : t1.toLower = 's') (h2 : t2.toLower = 'q') (h3 : t3.toLower = 'l') :
    stripPy (stripTrailFence (stripPy (stripLeadFence
      ('`' :: '`' :: '`' :: t1 :: t2 :: t3 :: '\n' ::
        (body ++ ['\n', '`', '`', '`']))))) = stripPy body := by
  rw [stripLeadFence_tagged t1 t2 t3 _ h1 h2 h3]
  have hlead : lstripPy ('\n' :: (body ++ ['\n', '`', '`', '`'])) =
      List.dropWhile pyWs (body ++ ['\n', '`', '`', '`']) := by
    unfold lstripPy
    simp [List.dropWhile_cons, show pyWs '\n' = true from by decide]
  rw [hlead, List.dropWhile_append]
  rcases hB : List.dropWhile pyWs body with _ | ⟨b, B'⟩
  · simp only [hB, List.isEmpty_nil, if_true]
    have htail : List.dropWhile pyWs ['\n', '`', '`', '`'] = ['`', '`', '`'] := by decide
    rw [htail]
    have h3s : stripPy ['`', '`', '`'] = ['`', '`', '`'] := by decide
    rw [h3s]
    rw [stripTrailFence_rev_fence ['`', '`', '`'] [] (by decide)]
    have hbody : stripPy body = [] := by
      unfold stripPy lstripPy
      rw [hB]
      rfl
    rw [hbody]
    rfl
  · have hbne : pyWs b = false := by
      have := List.head?_dropWhile_not pyWs body
      rw [hB] at this
      simpa using this
    simp only [List.isEmpty_cons]
    rw [if_neg (by simp)]
    have hsplit : (b :: B') ++ ['\n', '`', '`', '`'] =
        b :: (B' ++ ['\n', '`', '`']) ++ ['`'] := by simp
    have hs1 : stripPy ((b :: B') ++ ['\n', '`', '`', '`']) =
        (b :: B') ++ ['\n', '`', '`', '`'] := by
      unfold stripPy
      rw [show ((b :: B') ++ ['\n', '`', '`', '`']) = b :: (B' ++ ['\n', '`', '`', '`'])
        from by simp]
      rw [lstripPy_cons_nonws _ _ hbne]
      rw [show (b :: (B' ++ ['\n', '`', '`', '`'])) =
        (b :: (B' ++ ['\n', '`', '`'])) ++ ['`'] from by simp]
      rw [rstripPy_append_nonws _ '`' (by decide)]
    rw [hs1]
    have hrev : ((b :: B') ++ ['\n', '`', '`', '`']).reverse =
        '`' :: '`' :: '`' :: ('\n' :: (b :: B').reverse) := by
      rw [List.reverse_append]
      rfl
    rw [stripTrailFence_rev_fence _ _ hrev]
    have hdw : List.dropWhile pyWs ('\n' :: (b :: B').reverse) =
        List.dropWhile pyWs (b :: B').reverse := by
      simp [List.dropWhile_cons, show pyWs '\n' = true from by decide]
    rw [hdw]
    have hr : (List.dropWhile pyWs (b :: B').reverse).reverse = rstripPy (b :: B') := rfl
    rw [hr, show rstripPy (b :: B') = b :: rstripPy B' from rstripPy_cons_nonws b B' hbne]
    rw [stripPy_cons_nonws b _ hbne]
    have hrr : rstripPy (rstripPy B') = rstripPy B' := by
      unfold rstripPy
      rw [List.reverse_reverse, List.dropWhile_idempotent]
    rw [hrr]
    unfold stripPy lstripPy
    rw [hB, rstripPy_cons_nonws b B' hbne]

lemma mem_lstripPy {c : Char} {l : List Char} (h : c ∈ lstripPy l) : c ∈ l :=
  List.Sublist.mem h (List.dropWhile_sublist pyWs)

lemma mem_rstripPy {c : Char} {l : List Char} (h : c ∈ rstripPy l) : c ∈ l := by
  unfold rstripPy at h
  rw [List.mem_reverse] at h
  have := List.Sublist.mem h (List.dropWhile_sublist pyWs)
  rwa [List.mem_reverse] at this

lemma mem_stripPy {c : Char} {l : List Char} (h : c ∈ stripPy l) : c ∈ l :=
  mem_lstripPy (mem_rstripPy h)

lemma rstripPy_append_eq (l : List Char) :
    rstripPy l ++ (List.takeWhile pyWs l.reverse).reverse = l := by
  unfold rstripPy
  rw [← List.reverse_append, List.takeWhile_append_dropWhile, List.reverse_reverse]

lemma lstripPy_append_eq (l : List Char) :
    List.takeWhile pyWs l ++ lstripPy l = l := List.takeWhile_append_dropWhile pyWs l

lemma DashFree.rstrip {l : List Char} (h : DashFree l) : DashFree (rstripPy l) := by
  unfold DashFree at h ⊢
  rw [← rstripPy_append_eq l] at h
  exact (List.chain'_append.mp h).1

lemma DashFree.lstrip {l : List Char} (h : DashFree l) : DashFree (lstripPy l) := by
  unfold DashFree at h ⊢
  rw [← lstripPy_append_eq l] at h
  exact (List.chain'_append.mp h).2.1

lemma DashFree.strip {l : List Char} (h : DashFree l) : DashFree (stripPy l) :=
  h.lstrip.rstrip

lemma splitlinesAux_nil (acc : List Char) : splitlinesAux [] acc = [acc.reverse] := rfl

lemma splitlinesAux_crlf (c head : Char) (r2 acc : List Char)
    (h : c = '\r' ∧ (head :: r2).head? = some '\n') :
    splitlinesAux (c :: head :: r2) acc =
      if r2.isEmpty then [acc.reverse] else acc.reverse :: splitlinesAux r2 [] := by
  rw [splitlinesAux.eq_2, if_pos h]

lemma splitlinesAux_other (c : Char) (r acc : List Char)
    (h : ¬(c = '\r' ∧ r.head? = some '\n')) :
    splitlinesAux (c :: r) acc =
      if isLineBreak c then
        (if r.isEmpty then [acc.reverse] else acc.reverse :: splitlinesAux r [])
      else splitlinesAux r (c :: acc) := by
  rcases r with _ | ⟨d, r2⟩
  · rw [splitlinesAux.eq_3, if_neg h]
  · rw [splitlinesAux.eq_2, if_neg h]

lemma splitlinesAux_chars :
    ∀ (s acc : List Char), ∀ line ∈ splitlinesAux s acc, ∀ c ∈ line, c ∈ s ∨ c ∈ acc := by
  intro s acc
  induction s, acc using splitlinesAux.induct with
  | case1 acc =>
    intro line hl c hc
    rw [splitlinesAux_nil] at hl
    simp only [List.mem_singleton] at hl
    subst hl
    right
    rwa [List.mem_reverse] at hc
  | case2 c0 acc head r2 hr2 h =>
    intro line hl c hc
    rw [splitlinesAux_crlf c0 head r2 acc h, if_pos hr2] at hl
    simp only [List.mem_singleton] at hl
    subst hl
    right
    rwa [List.mem_reverse] at hc
  | case3 c0 acc head r2 hr2 h ih =>
    intro line hl c hc
    rw [splitlinesAux_crlf c0 head r2 acc h, if_neg hr2] at hl
    rcases List.mem_cons.mp hl with h' | h'
    · subst h'
      right
      rwa [List.mem_reverse] at hc
    · rcases ih line h' c hc with h'' | h''
      · left
        simp [h'']
      · simp at h''
  | case4 c0 acc h =>
    exact absurd h.2 (by simp)
  | case5 c0 r acc hne hbr hr =>
    intro line hl c hc
    rw [splitlinesAux_other c0 r acc hne, if_pos hbr, if_pos hr] at hl
    simp only [List.mem_singleton] at hl
    subst hl
    right
    rwa [List.mem_reverse] at hc
  | case6 c0 r acc hne hbr hr ih =>
    intro line hl c hc
    rw [splitlinesAux_other c0 r acc hne, if_pos hbr, if_neg hr] at hl
    rcases List.mem_cons.mp hl with h' | h'
    · subst h'
      right
      rwa [List.mem_reverse] at hc
    · rcases ih line h' c hc with h'' | h''
      · left
        exact List.mem_cons_of_mem c0 h''
      · simp at h''
  | case7 c0 r acc hne hbr ih =>
    intro line hl c hc
    rw [splitlinesAux_other c0 r acc hne, if_neg hbr] at hl
    rcases ih line hl c hc with h' | h'
    · left
      exact List.mem_cons_of_mem c0 h'
    · rcases List.mem_cons.mp h' with h'' | h''
      · left
        simp [h'']
      · right
        exact h''

lemma splitlinesPy_chars {s : List Char} :
    ∀ line ∈ splitlinesPy s, ∀ c ∈ line, c ∈ s := by
  intro line hl c hc
  unfold splitlinesPy at hl
  by_cases hs : s.isEmpty
  · simp [hs] at hl
  · rw [if_neg hs] at hl
    rcases splitlinesAux_chars s [] line hl c hc with h | h
    · exact h
    · simp at h

lemma cutCmt_sound :
    ∀ (l : List Char),
      (cutCmt l = none → DashFree l) ∧
      (∀ pre, cutCmt l = some pre →
        DashFree pre ∧ (∀ c ∈ pre, c ∈ l) ∧ (pre = [] ∨ pre.head? = l.head?)) := by
  intro l
  induction l with
  | nil =>
    constructor
    · intro _
      exact List.chain'_nil
    · intro pre h
      simp [cutCmt] at h
  | cons c rest ih =>
    by_cases hc : c = '-' ∧ rest.head? = some '-'
    · constructor
      · intro h
        rw [cutCmt, if_pos hc] at h
        exact absurd h (by simp)
      · intro pre h
        rw [cutCmt, if_pos hc] at h
        simp only [Option.some.injEq] at h
        subst h
        exact ⟨List.chain'_nil, by simp, Or.inl rfl⟩
    · constructor
      · intro h
        rw [cutCmt, if_neg hc] at h
        simp only [Option.map_eq_none'] at h
        have hrest := ih.1 h
        unfold DashFree at hrest ⊢
        rw [List.chain'_cons']
        refine ⟨?_, hrest⟩
        intro y hy
        rintro ⟨h1, h2⟩
        exact hc ⟨h1, by rw [hy, h2]⟩
      · intro pre h
        rw [cutCmt, if_neg hc] at h
        simp only [Option.map_eq_some'] at h
        obtain ⟨p, hp, hpre⟩ := h
        obtain ⟨hdf, hmem, hhd⟩ := (ih.2 p) hp
        subst hpre
        refine ⟨?_, ?_, Or.inr rfl⟩
        · unfold DashFree at hdf ⊢
          rw [List.chain'_cons']
          refine ⟨?_, hdf⟩
          intro y hy
          rintro ⟨h1, h2⟩
          rcases hhd with h0 | h0
          · subst h0
            simp at hy
          · rw [h0] at hy
            exact hc ⟨h1, by rw [hy, h2]⟩
        · intro x hx
          rcases List.mem_cons.mp hx with h' | h'
          · simp [h']
          · exact List.mem_cons_of_mem c (hmem x h')

lemma stripInlineComment_dashFree (l : List Char) :
    DashFree (stripInlineComment l) ∧ ∀ c ∈ stripInlineComment l, c ∈ l := by
  unfold stripInlineComment
  rcases h : cutCmt l with _ | pre
  · exact ⟨(cutCmt_sound l).1 h, fun c hc => hc⟩
  · obtain ⟨hdf, hmem, _⟩ := (cutCmt_sound l).2 pre h
    exact ⟨hdf.rstrip, fun c hc => hmem c (mem_rstripPy hc)⟩

lemma cleanLines_sound :
    ∀ (ls : List (List Char)), ∀ l' ∈ cleanLines ls,
      DashFree l' ∧ ∃ l ∈ ls, ∀ c ∈ l', c ∈ l := by
  intro ls
  induction ls with
  | nil => intro l' h; simp [cleanLines] at h
  | cons line rest ih =>
    intro l' h
    rw [cleanLines] at h
    by_cases h1 : stripPy line ≠ [] ∧ startsDashDash (stripPy line) = false
    · rw [if_pos h1] at h
      by_cases h2 : stripPy (stripInlineComment line) ≠ []
      · rw [if_pos h2] at h
        rcases List.mem_cons.mp h with h' | h'
        · subst h'
          obtain ⟨hdf, hmem⟩ := stripInlineComment_dashFree line
          exact ⟨hdf, line, List.mem_cons_self _ _, hmem⟩
        · obtain ⟨hdf, l, hl, hmem⟩ := ih l' h'
          exact ⟨hdf, l, List.mem_cons_of_mem _ hl, hmem⟩
      · rw [if_neg h2] at h
        obtain ⟨hdf, l, hl, hmem⟩ := ih l' h
        exact ⟨hdf, l, List.mem_cons_of_mem _ hl, hmem⟩
    · rw [if_neg h1] at h
      obtain ⟨hdf, l, hl, hmem⟩ := ih l' h
      exact ⟨hdf, l, List.mem_cons_of_mem _ hl, hmem⟩

lemma joinSpace_chars :
    ∀ (ls : List (List Char)), ∀ c ∈ joinSpace ls, c = ' ' ∨ ∃ l ∈ ls, c ∈ l := by
  intro ls
  induction ls with
  | nil => intro c h; simp [joinSpace] at h
  | cons l rest ih =>
    intro c h
    rcases rest with _ | ⟨l2, rest'⟩
    · right
      exact ⟨l, List.mem_cons_self _ _, h⟩
    · rw [show joinSpace (l :: l2 :: rest') = l ++ ' ' :: joinSpace (l2 :: rest') from rfl] at h
      rcases List.mem_append.mp h with h' | h'
      · right
        exact ⟨l, List.mem_cons_self _ _, h'⟩
      · rcases List.mem_cons.mp h' with h'' | h''
        · left
          exact h''
        · rcases ih c h'' with h3 | ⟨l3, hl3, hc3⟩
          · left
            exact h3
          · right
            exact ⟨l3, List.mem_cons_of_mem _ hl3, hc3⟩

lemma joinSpace_dashFree :
    ∀ (ls : List (List Char)), (∀ l ∈ ls, DashFree l) → DashFree (joinSpace ls) := by
  intro ls
  induction ls with
  | nil => intro _; exact List.chain'_nil
  | cons l rest ih =>
    intro hall
    rcases rest with _ | ⟨l2, rest'⟩
    · exact hall l (List.mem_cons_self _ _)
    · rw [show joinSpace (l :: l2 :: rest') = l ++ ' ' :: joinSpace (l2 :: rest') from rfl]
      unfold DashFree
      rw [List.chain'_append]
      refine ⟨hall l (List.mem_cons_self _ _), ?_, ?_⟩
      · rw [List.chain'_cons']
        refine ⟨?_, ih (fun x hx => hall x (List.mem_cons_of_mem _ hx))⟩
        intro y _
        rintro ⟨h1, _⟩
        exact absurd h1 (by decide)
      · intro x _ y hy
        rw [List.head?_cons, Option.mem_some_iff] at hy
        rintro ⟨_, h2⟩
        rw [← hy] at h2
        exact absurd h2 (by decide)

lemma collapseWsAux_chars :
    ∀ (l : List Char) (b : Bool), ∀ c ∈ collapseWsAux b l, c = ' ' ∨ c ∈ l := by
  intro l
  induction l with
  | nil => intro b c h; simp [collapseWsAux] at h
  | cons d rest ih =>
    intro b c h
    rw [collapseWsAux] at h
    by_cases hd : pyWs d
    · rw [if_pos hd] at h
      rcases hb : b with _ | _
      · rw [hb] at h
        simp only [Bool.false_eq_true, if_false] at h
        rcases List.mem_cons.mp h with h' | h'
        · left
          exact h'
        · rcases ih true c h' with h'' | h''
          · left
            exact h''
          · right
            exact List.mem_cons_of_mem d h''
      · rw [hb] at h
        simp only [if_true] at h
        rcases ih true c h with h'' | h''
        · left
          exact h''
        · right
          exact List.mem_cons_of_mem d h''
    · rw [if_neg hd] at h
      rcases List.mem_cons.mp h with h' | h'
      · right
        simp [h']
      · rcases ih false c h' with h'' | h''
        · left
          exact h''
        · right
          exact List.mem_cons_of_mem d h''

lemma collapseWsAux_wsSpace :
    ∀ (l : List Char) (b : Bool), ∀ c ∈ collapseWsAux b l, pyWs c = true → c = ' ' := by
  intro l
  induction l with
  | nil => intro b c h; simp [collapseWsAux] at h
  | cons d rest ih =>
    intro b c h hws
    rw [collapseWsAux] at h
    by_cases hd : pyWs d
    · rw [if_pos hd] at h
      rcases hb : b with _ | _
      · rw [hb] at h
        simp only [Bool.false_eq_true, if_false] at h
        rcases List.mem_cons.mp h with h' | h'
        · exact h'
        · exact ih true c h' hws
      · rw [hb] at h
        simp only [if_true] at h
        exact ih true c h hws
    · rw [if_neg hd] at h
      rcases List.mem_cons.mp h with h' | h'
      · subst h'
        exact absurd hws (by simp [hd])
      · exact ih false c h' hws

lemma collapseWsAux_head (d : Char) (t : List Char) :
    collapseWsAux false (d :: t) =
      if pyWs d then ' ' :: collapseWsAux true t else d :: collapseWsAux false t := by
  rw [collapseWsAux]
  by_cases hd : pyWs d
  · rw [if_pos hd, if_pos hd]
    simp
  · rw [if_neg hd, if_neg hd]

lemma collapseWsAux_dashFree :
    ∀ (l : List Char) (b : Bool), DashFree l → DashFree (collapseWsAux b l) := by
  intro l
  induction l with
  | nil => intro b _; exact List.chain'_nil
  | cons d rest ih =>
    intro b hdf
    have hdfr : DashFree rest := List.Chain'.tail hdf
    rw [collapseWsAux]
    by_cases hd : pyWs d
    · rw [if_pos hd]
      rcases b with _ | _
      · simp only [Bool.false_eq_true, if_false]
        unfold DashFree
        rw [List.chain'_cons']
        refine ⟨?_, ih true hdfr⟩
        intro y _
        rintro ⟨h1, _⟩
        exact absurd h1 (by decide)
      · simp only [if_true]
        exact ih true hdfr
    · rw [if_neg hd]
      unfold DashFree
      rw [List.chain'_cons']
      refine ⟨?_, ih false hdfr⟩
      intro y hy
      rcases rest with _ | ⟨e, t⟩
      · simp [collapseWsAux] at hy
      · rw [collapseWsAux_head e t] at hy
        by_cases he : pyWs e
        · rw [if_pos he] at hy
          rw [List.head?_cons, Option.mem_some_iff] at hy
          rintro ⟨_, h2⟩
          rw [← hy] at h2
          exact absurd h2 (by decide)
        · rw [if_neg he] at hy
          rw [List.head?_cons, Option.mem_some_iff] at hy
          rintro ⟨h1, h2⟩
          have hrel := List.chain'_cons.mp hdf
          exact hrel.1 ⟨h1, by rw [hy, h2]⟩

lemma mem_dropTrailingSemi {c : Char} {l : List Char} (h : c ∈ dropTrailingSemi l) :
    c ∈ l := by
  unfold dropTrailingSemi at h
  by_cases hl : l.getLast? = some ';'
  · rw [if_pos hl] at h
    exact List.Sublist.mem (mem_stripPy h) (List.dropLast_sublist l)
  · rwa [if_neg hl] at h

lemma DashFree.dropSemi {l : List Char} (h : DashFree l) : DashFree (dropTrailingSemi l) := by
  unfold dropTrailingSemi
  by_cases hl : l.getLast? = some ';'
  · rw [if_pos hl]
    refine DashFree.strip ?_
    unfold DashFree at h ⊢
    rw [← List.dropLast_append_getLast? _ hl] at h
    exact (List.chain'_append.mp h).1
  · rwa [if_neg hl]

lemma DashFree.no_dd {l : List Char} (h : DashFree l) :
    ∀ x y : List Char, l ≠ x ++ '-' :: '-' :: y := by
  intro x y heq
  unfold DashFree at h
  rw [heq] at h
  have h2 := (List.chain'_append.mp h).2.1
  exact (List.chain'_cons.mp h2).1 ⟨rfl, rfl⟩

lemma cleanSqlQueryL_fenced (t1 t2 t3 : Char) (body : List Char)
    (h1 : t1.toLower = 's') (h2 : t2.toLower = 'q') (h3 : t3.toLower = 'l') :
    cleanSqlQueryL ('`' :: '`' :: '`' :: t1 :: t2 :: t3 :: '\n' ::
        (body ++ ['\n', '`', '`', '`'])) =
      dropTrailingSemi (stripPy (collapseWs (joinSpace (cleanLines
        (splitlinesPy (stripPy body)))))) := by
  unfold cleanSqlQueryL
  simp only []
  rw [fencePhase t1 t2 t3 body h1 h2 h3]

lemma clean_sql_query_data (l : List Char) :
    (clean_sql_query ⟨l⟩).data = cleanSqlQueryL l := by
  have h : (clean_sql_query ⟨l⟩) = ⟨cleanSqlQueryL l⟩ := rfl
  rw [h]

/-- C3 (amended): the original claim's "with or without a language tag" fails
(see the counterexample: an untagged opening fence survives sanitization).  As
amended: for every raw model output wrapped in a tagged opening fence
(```` ```sql ````, any letter case) and a closing fence, whose fenced body
contains no backtick, `clean_sql_query` returns text with no backtick at all
(hence no fence marker), no `--` occurrence (hence no comment-only line and no
trailing inline comment), and no whitespace other than single spaces (internal
whitespace runs are collapsed; in particular the output has no line breaks);
a single trailing statement terminator is dropped by the final step of the
sanitizer (`dropTrailingSemi`). -/
theorem claim_C3_sanitizer (t1 t2 t3 : Char) (body : String)
    (h1 : t1.toLower = 's') (h2 : t2.toLower = 'q') (h3 : t3.toLower = 'l')
    (hbt : ∀ c ∈ body.data, c ≠ '`') :
    (∀ c ∈ (clean_sql_query ⟨'`' :: '`' :: '`' :: t1 :: t2 :: t3 :: '\n' ::
        (body.data ++ ['\n', '`', '`', '`'])⟩).data, c ≠ '`') ∧
    (∀ c ∈ (clean_sql_query ⟨'`' :: '`' :: '`' :: t1 :: t2 :: t3 :: '\n' ::
        (body.data ++ ['\n', '`', '`', '`'])⟩).data, pyWs c = true → c = ' ') ∧
    (∀ x y : List Char, (clean_sql_query ⟨'`' :: '`' :: '`' :: t1 :: t2 :: t3 :: '\n' ::
        (body.data ++ ['\n', '`', '`', '`'])⟩).data ≠ x ++ '-' :: '-' :: y) := by
  have hout : (clean_sql_query ⟨'`' :: '`' :: '`' :: t1 :: t2 :: t3 :: '\n' ::
      (body.data ++ ['\n', '`', '`', '`'])⟩).data =
      dropTrailingSemi (stripPy (collapseWs (joinSpace (cleanLines
        (splitlinesPy (stripPy body.data)))))) := by
    rw [clean_sql_query_data]
    exact cleanSqlQueryL_fenced t1 t2 t3 body.data h1 h2 h3
  rw [hout]
  refine ⟨?_, ?_, ?_⟩
  · intro c hc
    have h1' := mem_stripPy (mem_dropTrailingSemi hc)
    rcases collapseWsAux_chars _ false c h1' with h2' | h2'
    · rw [h2']
      decide
    · rcases joinSpace_chars _ c h2' with h3' | ⟨l', hl', hcl⟩
      · rw [h3']
        decide
      · obtain ⟨_, l, hl, hmem⟩ := cleanLines_sound _ l' hl'
        have : c ∈ stripPy body.data := splitlinesPy_chars l hl c (hmem c hcl)
        exact hbt c (mem_stripPy this)
  · intro c hc hws
    have h1' := mem_stripPy (mem_dropTrailingSemi hc)
    exact collapseWsAux_wsSpace _ false c h1' hws
  · refine DashFree.no_dd ?_
    refine DashFree.dropSemi (DashFree.strip (collapseWsAux_dashFree _ false ?_))
    refine joinSpace_dashFree _ ?_
    intro l' hl'
    exact (cleanLines_sound _ l' hl').1

/-- C3 (counterexample to the claim as stated): a raw output wrapped in
untagged code fences and containing a full-line comment is sanitized to text
that still contains the fence marker `` ``` ``, because the leading-fence
substitution of `clean_sql_query` only strips fences tagged `sql`. -/
theorem claim_C3_counterexample :
    clean_sql_query "```\n-- get one\nSELECT 1\n```" = "``` SELECT 1" ∧
    (∃ x y : List Char,
      (clean_sql_query "```\n-- get one\nSELECT 1\n```").data =
        x ++ '`' :: '`' :: '`' :: y) := by
  refine ⟨by decide, [], " SELECT 1".data, by decide⟩

/-- C3 (witness): the amended sanitizer guarantees evaluated at a concrete
tagged, fenced raw output with comment lines. -/
theorem claim_C3_witness :
    (∀ c ∈ (clean_sql_query ⟨'`' :: '`' :: '`' :: 's' :: 'q' :: 'l' :: '\n' ::
        (("-- note\nSELECT 1; -- trailing\nFROM  t").data ++ ['\n', '`', '`', '`'])⟩).data,
        c ≠ '`') ∧
    (∀ c ∈ (clean_sql_query ⟨'`' :: '`' :: '`' :: 's' :: 'q' :: 'l' :: '\n' ::
        (("-- note\nSELECT 1; -- trailing\nFROM  t").data ++ ['\n', '`', '`', '`'])⟩).data,
        pyWs c = true → c = ' ') ∧
    (∀ x y : List Char, (clean_sql_query ⟨'`' :: '`' :: '`' :: 's' :: 'q' :: 'l' :: '\n' ::
        (("-- note\nSELECT 1; -- trailing\nFROM  t").data ++ ['\n', '`', '`', '`'])⟩).data ≠
        x ++ '-' :: '-' :: y) :=
  claim_C3_sanitizer 's' 'q' 'l' "-- note\nSELECT 1; -- trailing\nFROM  t"
    (by decide) (by decide) (by decide) (by decide)

lemma toLower_eq_newline {c : Char} (h : c.toLower = '\n') : c = '\n' := by
  unfold Char.toLower at h
  simp only [] at h
  by_cases hc : c.toNat ≥ 65 ∧ c.toNat ≤ 90
  · rw [if_pos hc] at h
    have h2 := congrArg Char.toNat h
    have h3 : (Char.ofNat (c.toNat + 32)).toNat = c.toNat + 32 := by
      have hv : (c.toNat + 32).isValidChar := by
        left
        omega
      unfold Char.ofNat Char.ofNatAux
      rw [dif_pos hv]
      simp [Char.toNat, UInt32.toNat, BitVec.toNat_ofNatLt]
    rw [h3] at h2
    have h4 : ('\n').toNat = 10 := by decide
    omega
  · rwa [if_neg hc] at h

lemma clean_sql_query_data2 (s : String) :
    (clean_sql_query s).data = cleanSqlQueryL s.data := by
  have h : clean_sql_query s = ⟨cleanSqlQueryL s.data⟩ := rfl
  rw [h]

lemma clean_sql_query_wsSpace (raw : String) :
    ∀ c ∈ (clean_sql_query raw).data, pyWs c = true → c = ' ' := by
  intro c hc hws
  rw [clean_sql_query_data2] at hc
  have h1 := hc
  unfold cleanSqlQueryL at h1
  simp only [] at h1
  exact collapseWsAux_wsSpace _ false c (mem_stripPy (mem_dropTrailingSemi h1)) hws

lemma clean_sql_query_lower_no_newline (raw : String) :
    ∀ c ∈ (clean_sql_query raw).data.map Char.toLower, c ≠ '\n' := by
  intro c hc hcn
  rcases List.mem_map.mp hc with ⟨c0, hc0, hlow⟩
  subst hcn
  have hc0n : c0 = '\n' := toLower_eq_newline hlow
  subst hc0n
  have := clean_sql_query_wsSpace raw '\n' hc0 (by decide)
  exact absurd this (by decide)

lemma prevAt_nil (prev : Option Char) : prevAt prev [] = prev := rfl

lemma prevAt_cons (prev : Option Char) (c : Char) (a : List Char) :
    prevAt prev (c :: a) = prevAt (some c) a := by
  unfold prevAt
  rcases ha : a.getLast? with _ | d
  · rw [List.getLast?_cons, ha]
    rfl
  · rw [List.getLast?_cons, ha]
    rfl

lemma searchPat_iff (p : Option Char → List Char → Bool) :
    ∀ (l : List Char) (prev : Option Char),
      searchPat p prev l = true ↔ ∃ a b, l = a ++ b ∧ p (prevAt prev a) b = true := by
  intro l
  induction l with
  | nil =>
    intro prev
    rw [searchPat]
    constructor
    · intro h
      exact ⟨[], [], rfl, h⟩
    · rintro ⟨a, b, hab, hp⟩
      obtain ⟨ha, hb⟩ := List.append_eq_nil.mp hab.symm
      subst ha
      subst hb
      exact hp
  | cons c rest ih =>
    intro prev
    rw [searchPat]
    rw [Bool.or_eq_true]
    constructor
    · rintro (h | h)
      · exact ⟨[], c :: rest, rfl, h⟩
      · obtain ⟨a, b, hab, hp⟩ := (ih (some c)).mp h
        refine ⟨c :: a, b, by rw [List.cons_append, hab], ?_⟩
        rwa [prevAt_cons]
    · rintro ⟨a, b, hab, hp⟩
      rcases a with _ | ⟨c0, a'⟩
      · left
        rw [List.nil_append] at hab
        rw [hab]
        rwa [prevAt_nil] at hp
      · right
        rw [List.cons_append] at hab
        injection hab with h1 h2
        subst h1
        refine (ih (some c)).mpr ⟨a', b, h2, ?_⟩
        rwa [prevAt_cons] at hp

lemma litP_iff : ∀ (k s r : List Char), litP k s = some r ↔ s = k ++ r := by
  intro k
  induction k with
  | nil =>
    intro s r
    rw [litP]
    simp
  | cons kc ks ih =>
    intro s r
    rcases s with _ | ⟨c, s'⟩
    · rw [litP]
      simp
    · rw [litP]
      by_cases hc : c = kc
      · rw [if_pos hc]
        rw [ih s' r]
        subst hc
        simp
      · rw [if_neg hc]
        constructor
        · intro h
          exact absurd h (by simp)
        · intro h
          rw [List.cons_append] at h
          injection h with h1 _
          exact absurd h1 hc

lemma headNotWs_dropWhile (t : List Char) :
    ∀ c ∈ (List.dropWhile pyWs t).head?, pyWs c = false := by
  intro c hc
  have := List.head?_dropWhile_not pyWs t
  rcases hd : (List.dropWhile pyWs t).head? with _ | d
  · rw [hd] at hc
    simp at hc
  · rw [hd] at this hc
    simp only [Option.mem_some_iff] at hc
    rw [← hc]
    exact this

lemma ws1_iff (s r : List Char) (hr : ∀ c ∈ r.head?, pyWs c = false) :
    ws1 s = some r ↔ ∃ w, s = w ++ r ∧ w ≠ [] ∧ (∀ c ∈ w, pyWs c = true) := by
  constructor
  · intro h
    rcases s with _ | ⟨c, t⟩
    · rw [ws1] at h
      exact absurd h (by simp)
    · rw [ws1] at h
      by_cases hc : pyWs c
      · rw [if_pos hc] at h
        simp only [Option.some.injEq] at h
        refine ⟨c :: List.takeWhile pyWs t, ?_, by simp, ?_⟩
        · rw [List.cons_append, ← h, List.takeWhile_append_dropWhile]
        · intro x hx
          rcases List.mem_cons.mp hx with h' | h'
          · rwa [h']
          · exact List.mem_takeWhile_imp h'
      · rw [if_neg hc] at h
        exact absurd h (by simp)
  · rintro ⟨w, hsw, hne, hws⟩
    rcases w with _ | ⟨wc, w'⟩
    · exact absurd rfl hne
    · rw [List.cons_append] at hsw
      subst hsw
      rw [ws1, if_pos (hws wc (List.mem_cons_self _ _))]
      congr 1
      rw [List.dropWhile_append]
      have hw' : List.dropWhile pyWs w' = [] := by
        rw [List.dropWhile_eq_nil_iff]
        intro x hx
        exact hws x (List.mem_cons_of_mem _ hx)
      rw [hw']
      simp only [List.isEmpty_nil, if_true]
      rcases r with _ | ⟨rc, r'⟩
      · rfl
      · rw [List.dropWhile_cons, if_neg ?_]
        have := hr rc (by simp)
        simp [this]

lemma noBoundPrev_getLast_iff (a : List Char) :
    noBoundPrev (prevAt none a) = true ↔ LastNotWord a := by
  unfold prevAt LastNotWord
  rcases ha : a.getLast? with _ | d
  · simp [noBoundPrev]
  · simp only [noBoundPrev]
    constructor
    · intro h c hc
      injection hc with hc
      subst hc
      simpa using h
    · intro h
      simpa using h d rfl

lemma noBoundPrev_append_iff (kw : List Char) (w : Char) (x : List Char)
    (hkw : kw.getLast? = some w) :
    noBoundPrev (prevAt (some w) x) = true ↔ LastNotWord (kw ++ x) := by
  unfold prevAt LastNotWord
  rcases hx : x.getLast? with _ | d
  · have hx' : x = [] := List.getLast?_eq_none_iff.mp hx
    subst hx'
    rw [List.append_nil]
    simp only [noBoundPrev]
    constructor
    · intro h c hc
      rw [hkw] at hc
      injection hc with hc
      subst hc
      simpa using h
    · intro h
      simpa using h w hkw
  · rw [List.getLast?_append, hx]
    simp only [noBoundPrev, Option.or_some]
    constructor
    · intro h c hc
      injection hc with hc
      subst hc
      simpa using h
    · intro h
      simpa using h d rfl

lemma patKw1_iff (k : List Char) (prev : Option Char) (s : List Char) :
    patKw1 k prev s = true ↔
      noBoundPrev prev = true ∧ ∃ r, s = k ++ r ∧ wbAfter r = true := by
  unfold patKw1
  rw [Bool.and_eq_true]
  constructor
  · rintro ⟨h1, h2⟩
    refine ⟨h1, ?_⟩
    rcases hl : litP k s with _ | r
    · rw [hl] at h2
      exact absurd h2 (by simp)
    · rw [hl] at h2
      exact ⟨r, (litP_iff k s r).mp hl, h2⟩
  · rintro ⟨h1, r, hs, hwb⟩
    refine ⟨h1, ?_⟩
    rw [(litP_iff k s r).mpr hs]
    exact hwb

lemma patKw2_iff (k1 : List Char) (kc : Char) (ks : List Char) (prev : Option Char)
    (s : List Char) (hk2 : pyWs kc = false) :
    patKw2 k1 (kc :: ks) prev s = true ↔
      noBoundPrev prev = true ∧
      ∃ w r, s = k1 ++ (w ++ ((kc :: ks) ++ r)) ∧ w ≠ [] ∧
        (∀ c ∈ w, pyWs c = true) ∧ wbAfter r = true := by
  unfold patKw2
  rw [Bool.and_eq_true]
  constructor
  · rintro ⟨h1, h2⟩
    refine ⟨h1, ?_⟩
    split at h2
    · next r1 hl =>
      split at h2
      · next r2 hw =>
        split at h2
        · next r3 hl2 =>
          have hs1 : s = k1 ++ r1 := (litP_iff k1 s r1).mp hl
          have hr2 : r2 = (kc :: ks) ++ r3 := (litP_iff (kc :: ks) r2 r3).mp hl2
          have hr2h : ∀ c ∈ r2.head?, pyWs c = false := by
            intro c hc
            rw [hr2, List.cons_append, List.head?_cons, Option.mem_some_iff] at hc
            subst hc
            exact hk2
          obtain ⟨w, hr1, hwne, hww⟩ := (ws1_iff r1 r2 hr2h).mp hw
          exact ⟨w, r3, by rw [hs1, hr1, hr2], hwne, hww, h2⟩
        · simp at h2
      · simp at h2
    · simp at h2
  · rintro ⟨h1, w, r, hs, hwne, hww, hwb⟩
    refine ⟨h1, ?_⟩
    rw [(litP_iff k1 s (w ++ ((kc :: ks) ++ r))).mpr hs]
    have hws1 : ws1 (w ++ ((kc :: ks) ++ r)) = some ((kc :: ks) ++ r) := by
      refine (ws1_iff _ _ ?_).mpr ⟨w, rfl, hwne, hww⟩
      intro c hc
      rw [List.cons_append, List.head?_cons, Option.mem_some_iff] at hc
      subst hc
      exact hk2
    simp only [hws1, (litP_iff (kc :: ks) ((kc :: ks) ++ r) r).mpr rfl]
    exact hwb

lemma searchNoNl_eq (p : Option Char → List Char → Bool) :
    ∀ (l : List Char), (∀ c ∈ l, c ≠ '\n') → ∀ prev,
      searchNoNl p prev l = searchPat p prev l := by
  intro l
  induction l with
  | nil => intro _ prev; rfl
  | cons c rest ih =>
    intro hnl prev
    rw [searchNoNl, searchPat]
    have hc : c ≠ '\n' := hnl c (List.mem_cons_self _ _)
    rw [decide_eq_true hc]
    rw [Bool.true_and]
    rw [ih (fun x hx => hnl x (List.mem_cons_of_mem _ hx)) (some c)]

lemma searchKw1_after_iff (needle kw : List Char) (w : Char)
    (hkw : kw.getLast? = some w) (r : List Char) :
    searchPat (patKw1 needle) (some w) r = true ↔
      ∃ x y, r = x ++ (needle ++ y) ∧ LastNotWord (kw ++ x) ∧ wbAfter y = true := by
  rw [searchPat_iff]
  constructor
  · rintro ⟨x, y0, hr, hp⟩
    obtain ⟨h1, y, hy, hwb⟩ := (patKw1_iff needle _ y0).mp hp
    refine ⟨x, y, by rw [hr, hy], ?_, hwb⟩
    exact (noBoundPrev_append_iff kw w x hkw).mp h1
  · rintro ⟨x, y, hr, hlast, hwb⟩
    refine ⟨x, needle ++ y, hr, ?_⟩
    refine (patKw1_iff needle _ _).mpr ⟨?_, y, rfl, hwb⟩
    exact (noBoundPrev_append_iff kw w x hkw).mpr hlast

lemma searchKw2_iff (k1 : List Char) (kc : Char) (ks : List Char) (l : List Char)
    (hk2 : pyWs kc = false) :
    searchPat (patKw2 k1 (kc :: ks)) none l = true ↔ SpecKw2In k1 (kc :: ks) l := by
  rw [searchPat_iff]
  unfold SpecKw2In
  constructor
  · rintro ⟨a, b, hl, hp⟩
    obtain ⟨h1, w, r, hb, hwne, hww, hwb⟩ := (patKw2_iff k1 kc ks _ b hk2).mp hp
    refine ⟨a, w, r, by rw [hl, hb]; simp [List.append_assoc], hwne, hww, ?_, hwb⟩
    exact (noBoundPrev_getLast_iff a).mp h1
  · rintro ⟨a, w, r, hl, hwne, hww, hlast, hwb⟩
    refine ⟨a, k1 ++ (w ++ ((kc :: ks) ++ r)), by rw [hl]; simp [List.append_assoc], ?_⟩
    refine (patKw2_iff k1 kc ks _ _ hk2).mpr ⟨?_, w, r, rfl, hwne, hww, hwb⟩
    exact (noBoundPrev_getLast_iff a).mpr hlast

lemma whereOcc_iff (kw : List Char) (w : Char) (hkw : kw.getLast? = some w)
    (r : List Char) :
    searchPat (patKw1 "where".data) (some w) r = true ↔ WhereOccAfter kw r := by
  rw [searchKw1_after_iff "where".data kw w hkw r]
  unfold WhereOccAfter
  constructor <;> rintro ⟨x, y, hr, hl, hwb⟩ <;>
    exact ⟨x, y, by rw [hr]; simp [List.append_assoc], hl, hwb⟩

lemma patDeleteFrom_iff (prev : Option Char) (s : List Char)
    (hnl : ∀ c ∈ s, c ≠ '\n') :
    patDeleteFrom prev s = true ↔
      noBoundPrev prev = true ∧
      ∃ w r, s = "delete".data ++ (w ++ ("from".data ++ r)) ∧ w ≠ [] ∧
        (∀ c ∈ w, pyWs c = true) ∧ wbAfter r = true ∧
        ¬ WhereOccAfter "from".data r := by
  unfold patDeleteFrom
  rw [Bool.and_eq_true]
  have hm : ("from".data).getLast? = some 'm' := by decide
  constructor
  · rintro ⟨h1, h2⟩
    refine ⟨h1, ?_⟩
    split at h2
    · next r1 hl =>
      split at h2
      · next r2 hw =>
        split at h2
        · next r3 hl2 =>
          rw [Bool.and_eq_true, Bool.not_eq_true'] at h2
          obtain ⟨hwb, hns⟩ := h2
          have hs1 : s = "delete".data ++ r1 := (litP_iff _ s r1).mp hl
          have hr2 : r2 = "from".data ++ r3 := (litP_iff _ r2 r3).mp hl2
          have hr2h : ∀ c ∈ r2.head?, pyWs c = false := by
            intro c hc
            rw [hr2, show (("from".data ++ r3)).head? = some 'f' from rfl,
              Option.mem_some_iff] at hc
            subst hc
            decide
          obtain ⟨w, hr1, hwne, hww⟩ := (ws1_iff r1 r2 hr2h).mp hw
          have hr3nl : ∀ c ∈ r3, c ≠ '\n' := by
            intro c hc
            refine hnl c ?_
            rw [hs1, hr1, hr2]
            simp [hc]
          rw [searchNoNl_eq _ r3 hr3nl (some 'm')] at hns
          refine ⟨w, r3, by rw [hs1, hr1, hr2], hwne, hww, hwb, ?_⟩
          intro hocc
          rw [← whereOcc_iff "from".data 'm' hm r3] at hocc
          rw [hocc] at hns
          exact absurd hns (by simp)
        · simp at h2
      · simp at h2
    · simp at h2
  · rintro ⟨h1, w, r, hs, hwne, hww, hwb, hnocc⟩
    refine ⟨h1, ?_⟩
    rw [(litP_iff "delete".data s (w ++ ("from".data ++ r))).mpr hs]
    have hws1 : ws1 (w ++ ("from".data ++ r)) = some ("from".data ++ r) := by
      refine (ws1_iff _ _ ?_).mpr ⟨w, rfl, hwne, hww⟩
      intro c hc
      rw [show (("from".data ++ r)).head? = some 'f' from rfl,
        Option.mem_some_iff] at hc
      subst hc
      decide
    have hrnl : ∀ c ∈ r, c ≠ '\n' := by
      intro c hc
      refine hnl c ?_
      rw [hs]
      simp [hc]
    have hsearch : searchPat (patKw1 "where".data) (some 'm') r = false := by
      rw [← Bool.not_eq_true]
      intro hocc
      exact hnocc ((whereOcc_iff "from".data 'm' hm r).mp hocc)
    simp only [hws1, (litP_iff "from".data ("from".data ++ r) r).mpr rfl]
    rw [Bool.and_eq_true, Bool.not_eq_true']
    exact ⟨hwb, by rw [searchNoNl_eq _ r hrnl (some 'm')]; exact hsearch⟩

lemma patUpdate_iff (prev : Option Char) (s : List Char)
    (hnl : ∀ c ∈ s, c ≠ '\n') :
    patUpdate prev s = true ↔
      noBoundPrev prev = true ∧
      ∃ r, s = "update".data ++ r ∧ wbAfter r = true ∧
        ¬ WhereOccAfter "update".data r := by
  unfold patUpdate
  rw [Bool.and_eq_true]
  have he : ("update".data).getLast? = some 'e' := by decide
  constructor
  · rintro ⟨h1, h2⟩
    refine ⟨h1, ?_⟩
    split at h2
    · next r hl =>
      rw [Bool.and_eq_true, Bool.not_eq_true'] at h2
      obtain ⟨hwb, hns⟩ := h2
      have hs1 : s = "update".data ++ r := (litP_iff _ s r).mp hl
      have hrnl : ∀ c ∈ r, c ≠ '\n' := by
        intro c hc
        refine hnl c ?_
        rw [hs1]
        simp [hc]
      rw [searchNoNl_eq _ r hrnl (some 'e')] at hns
      refine ⟨r, hs1, hwb, ?_⟩
      intro hocc
      rw [← whereOcc_iff "update".data 'e' he r] at hocc
      rw [hocc] at hns
      exact absurd hns (by simp)
    · simp at h2
  · rintro ⟨h1, r, hs, hwb, hnocc⟩
    refine ⟨h1, ?_⟩
    have hrnl : ∀ c ∈ r, c ≠ '\n' := by
      intro c hc
      refine hnl c ?_
      rw [hs]
      simp [hc]
    have hsearch : searchPat (patKw1 "where".data) (some 'e') r = false := by
      rw [← Bool.not_eq_true]
      intro hocc
      exact hnocc ((whereOcc_iff "update".data 'e' he r).mp hocc)
    simp only [(litP_iff "update".data s r).mpr hs]
    rw [Bool.and_eq_true, Bool.not_eq_true']
    exact ⟨hwb, by rw [searchNoNl_eq _ r hrnl (some 'e')]; exact hsearch⟩

lemma patAlterDrop_iff (prev : Option Char) (s : List Char)
    (hnl : ∀ c ∈ s, c ≠ '\n') :
    patAlterDrop prev s = true ↔
      noBoundPrev prev = true ∧
      ∃ w r, s = "alter".data ++ (w ++ ("table".data ++ r)) ∧ w ≠ [] ∧
        (∀ c ∈ w, pyWs c = true) ∧ wbAfter r = true ∧
        ∃ x y, r = x ++ ("drop".data ++ y) ∧ LastNotWord ("table".data ++ x) ∧
          wbAfter y = true := by
  unfold patAlterDrop
  rw [Bool.and_eq_true]
  have he : ("table".data).getLast? = some 'e' := by decide
  constructor
  · rintro ⟨h1, h2⟩
    refine ⟨h1, ?_⟩
    split at h2
    · next r1 hl =>
      split at h2
      · next r2 hw =>
        split at h2
        · next r3 hl2 =>
          rw [Bool.and_eq_true] at h2
          obtain ⟨hwb, hsrch⟩ := h2
          have hs1 : s = "alter".data ++ r1 := (litP_iff _ s r1).mp hl
          have hr2 : r2 = "table".data ++ r3 := (litP_iff _ r2 r3).mp hl2
          have hr2h : ∀ c ∈ r2.head?, pyWs c = false := by
            intro c hc
            rw [hr2, show (("table".data ++ r3)).head? = some 't' from rfl,
              Option.mem_some_iff] at hc
            subst hc
            decide
          obtain ⟨w, hr1, hwne, hww⟩ := (ws1_iff r1 r2 hr2h).mp hw
          have hr3nl : ∀ c ∈ r3, c ≠ '\n' := by
            intro c hc
            refine hnl c ?_
            rw [hs1, hr1, hr2]
            simp [hc]
          rw [searchNoNl_eq _ r3 hr3nl (some 'e')] at hsrch
          refine ⟨w, r3, by rw [hs1, hr1, hr2], hwne, hww, hwb, ?_⟩
          exact (searchKw1_after_iff "drop".data "table".data 'e' he r3).mp hsrch
        · simp at h2
      · simp at h2
    · simp at h2
  · rintro ⟨h1, w, r, hs, hwne, hww, hwb, hocc⟩
    refine ⟨h1, ?_⟩
    rw [(litP_iff "alter".data s (w ++ ("table".data ++ r))).mpr hs]
    have hws1 : ws1 (w ++ ("table".data ++ r)) = some ("table".data ++ r) := by
      refine (ws1_iff _ _ ?_).mpr ⟨w, rfl, hwne, hww⟩
      intro c hc
      rw [show (("table".data ++ r)).head? = some 't' from rfl,
        Option.mem_some_iff] at hc
      subst hc
      decide
    have hrnl : ∀ c ∈ r, c ≠ '\n' := by
      intro c hc
      refine hnl c ?_
      rw [hs]
      simp [hc]
    simp only [hws1, (litP_iff "table".data ("table".data ++ r) r).mpr rfl]
    rw [Bool.and_eq_true]
    refine ⟨hwb, ?_⟩
    rw [searchNoNl_eq _ r hrnl (some 'e')]
    exact (searchKw1_after_iff "drop".data "table".data 'e' he r).mpr hocc

lemma searchDeleteFrom_iff (l : List Char) (hnl : ∀ c ∈ l, c ≠ '\n') :
    searchPat patDeleteFrom none l = true ↔ SpecDeleteFromNoWhere l := by
  rw [searchPat_iff]
  unfold SpecDeleteFromNoWhere
  constructor
  · rintro ⟨a, b, hl, hp⟩
    have hbnl : ∀ c ∈ b, c ≠ '\n' := fun c hc => hnl c (by rw [hl]; simp [hc])
    obtain ⟨h1, w, r, hb, hwne, hww, hwb, hnocc⟩ := (patDeleteFrom_iff _ b hbnl).mp hp
    exact ⟨a, w, r, by rw [hl, hb]; simp [List.append_assoc], hwne, hww,
      (noBoundPrev_getLast_iff a).mp h1, hwb, hnocc⟩
  · rintro ⟨a, w, r, hl, hwne, hww, hlast, hwb, hnocc⟩
    refine ⟨a, "delete".data ++ (w ++ ("from".data ++ r)),
      by rw [hl]; simp [List.append_assoc], ?_⟩
    have hbnl : ∀ c ∈ "delete".data ++ (w ++ ("from".data ++ r)), c ≠ '\n' := by
      intro c hc
      refine hnl c ?_
      rw [hl]
      simp only [List.append_assoc]
      exact List.mem_append_right a hc
    exact (patDeleteFrom_iff _ _ hbnl).mpr
      ⟨(noBoundPrev_getLast_iff a).mpr hlast, w, r, rfl, hwne, hww, hwb, hnocc⟩

lemma searchUpdate_iff (l : List Char) (hnl : ∀ c ∈ l, c ≠ '\n') :
    searchPat patUpdate none l = true ↔ SpecUpdateNoWhere l := by
  rw [searchPat_iff]
  unfold SpecUpdateNoWhere
  constructor
  · rintro ⟨a, b, hl, hp⟩
    have hbnl : ∀ c ∈ b, c ≠ '\n' := fun c hc => hnl c (by rw [hl]; simp [hc])
    obtain ⟨h1, r, hb, hwb, hnocc⟩ := (patUpdate_iff _ b hbnl).mp hp
    exact ⟨a, r, by rw [hl, hb]; simp [List.append_assoc], 
      (noBoundPrev_getLast_iff a).mp h1, hwb, hnocc⟩
  · rintro ⟨a, r, hl, hlast, hwb, hnocc⟩
    refine ⟨a, "update".data ++ r, by rw [hl]; simp [List.append_assoc], ?_⟩
    have hbnl : ∀ c ∈ "update".data ++ r, c ≠ '\n' := by
      intro c hc
      refine hnl c ?_
      rw [hl]
      simp only [List.append_assoc]
      exact List.mem_append_right a hc
    exact (patUpdate_iff _ _ hbnl).mpr
      ⟨(noBoundPrev_getLast_iff a).mpr hlast, r, rfl, hwb, hnocc⟩

lemma searchAlterDrop_iff (l : List Char) (hnl : ∀ c ∈ l, c ≠ '\n') :
    searchPat patAlterDrop none l = true ↔ SpecAlterTableDrop l := by
  rw [searchPat_iff]
  unfold SpecAlterTableDrop
  constructor
  · rintro ⟨a, b, hl, hp⟩
    have hbnl : ∀ c ∈ b, c ≠ '\n' := fun c hc => hnl c (by rw [hl]; simp [hc])
    obtain ⟨h1, w, r, hb, hwne, hww, hwb, x, y, hr, hlx, hwy⟩ :=
      (patAlterDrop_iff _ b hbnl).mp hp
    exact ⟨a, w, r, by rw [hl, hb]; simp [List.append_assoc], hwne, hww,
      (noBoundPrev_getLast_iff a).mp h1, hwb, x, y,
      by rw [hr]; simp [List.append_assoc], hlx, hwy⟩
  · rintro ⟨a, w, r, hl, hwne, hww, hlast, hwb, x, y, hr, hlx, hwy⟩
    refine ⟨a, "alter".data ++ (w ++ ("table".data ++ r)),
      by rw [hl]; simp [List.append_assoc], ?_⟩
    have hbnl : ∀ c ∈ "alter".data ++ (w ++ ("table".data ++ r)), c ≠ '\n' := by
      intro c hc
      refine hnl c ?_
      rw [hl]
      simp only [List.append_assoc]
      exact List.mem_append_right a hc
    exact (patAlterDrop_iff _ _ hbnl).mpr
      ⟨(noBoundPrev_getLast_iff a).mpr hlast, w, r, rfl, hwne, hww, hwb, x, y,
        by rw [hr]; simp [List.append_assoc], hlx, hwy⟩

lemma is_dangerous_sql_iff_spec (s : String)
    (hnl : ∀ c ∈ s.data.map Char.toLower, c ≠ '\n') :
    is_dangerous_sql s = true ↔ SpecDestructive s := by
  unfold is_dangerous_sql SpecDestructive
  simp only [Bool.or_eq_true]
  rw [searchKw2_iff ['d', 'r', 'o', 'p'] 'd' ['a', 't', 'a', 'b', 'a', 's', 'e'] _ (by decide)]
  rw [searchKw2_iff ['d', 'r', 'o', 'p'] 't' ['a', 'b', 'l', 'e'] _ (by decide)]
  rw [searchKw2_iff ['t', 'r', 'u', 'n', 'c', 'a', 't', 'e'] 't' ['a', 'b', 'l', 'e'] _ (by decide)]
  rw [searchDeleteFrom_iff _ hnl, searchAlterDrop_iff _ hnl, searchUpdate_iff _ hnl]
  tauto

/-- C1: the destructive-operation filter `is_dangerous_sql`, applied to the
sanitized text (which contains no newline, so the lookaheads scan everything
after the keyword), matches exactly when the lowercased text contains a
database or table DROP, a table TRUNCATE, a DELETE FROM with no WHERE keyword
anywhere after it, an ALTER TABLE ... DROP ..., or an UPDATE with no WHERE
keyword anywhere after it (`SpecDestructive`, the claim's characterisation);
texts whose DELETE FROM / UPDATE are followed by a WHERE therefore pass unless
another pattern matches.  Consequently `generate_sql` rejects any such
sanitized output with the `UnsafeOperation`-typed error (the code's
`dangerousOperation`, message "生成的SQL查询包含危险操作，已被系统拒绝"). -/
theorem claim_C1_destructive_filter (raw : String) :
    (is_dangerous_sql (clean_sql_query raw) = true ↔
      SpecDestructive (clean_sql_query raw)) ∧
    (∀ (env : GenEnv) (dbs : String), env.connected = true →
      env.schema = Except.ok dbs → dbs ≠ "" → dbs ≠ structFailMsg →
      env.llm = Except.ok raw →
      strStartsWith (clean_sql_query raw) "ERROR:" = false →
      clean_sql_query raw ≠ "" →
      SpecDestructive (clean_sql_query raw) →
      generate_sql env = Except.error SqlGenError.dangerousOperation) := by
  have hiff := is_dangerous_sql_iff_spec (clean_sql_query raw)
    (clean_sql_query_lower_no_newline raw)
  refine ⟨hiff, ?_⟩
  intro env dbs hconn hschema hne hnf hllm hstart hempty hdang
  have hd : is_dangerous_sql (clean_sql_query raw) = true := hiff.mpr hdang
  simp only [generate_sql, hconn, hschema, hllm, hstart, hd, Bool.true_eq_false,
    Bool.false_eq_true, if_false]
  rw [if_neg (by simp [hne, hnf])]
  rw [if_neg hempty]
  simp

/-- C1 (witness): the filter theorem evaluated at the end-to-end scenario-D
query `UPDATE users SET active=0` (no WHERE): it is destructive in the claim's
sense and `generate_sql` rejects it. -/
theorem claim_C1_witness :
    (is_dangerous_sql (clean_sql_query "UPDATE users SET active=0") = true ↔
      SpecDestructive (clean_sql_query "UPDATE users SET active=0")) ∧
    generate_sql
      { connected := true, schema := Except.ok "db",
        llm := Except.ok "UPDATE users SET active=0" } =
      Except.error SqlGenError.dangerousOperation := by
  refine ⟨(claim_C1_destructive_filter "UPDATE users SET active=0").1, ?_⟩
  refine (claim_C1_destructive_filter "UPDATE users SET active=0").2
    _ "db" rfl rfl (by decide) (by decide) rfl (by decide) (by decide) ?_
  exact (claim_C1_destructive_filter "UPDATE users SET active=0").1.mp (by decide)

lemma startsWithL_self_append : ∀ (k r : List Char), startsWithL (k ++ r) k = true := by
  intro k
  induction k with
  | nil =>
    intro r
    rw [List.nil_append]
    cases r <;> rfl
  | cons c ks ih =>
    intro r
    rw [List.cons_append, startsWithL]
    simp [ih r]

/-- C2: when the generation backend's output sanitizes to the sentinel prefix
`ERROR:` plus any suffix, `generate_sql` fails with the `AmbiguousQuery` error
carrying the remainder after the prefix (stripped of surrounding whitespace,
as `split(':', 1)[1].strip()` does) as detail, and in streaming mode the
pipeline stops right after the parsing stage: the event stream is exactly
preparing, parsing, error — the execution stage is never invoked, no
executing-status event and no `done` event is ever emitted. -/
theorem claim_C2_sentinel (env : StreamEnv) (raw suffix dbs : String)
    (hconn : env.gen.connected = true)
    (hschema : env.gen.schema = Except.ok dbs)
    (hne : dbs ≠ "") (hnf : dbs ≠ structFailMsg)
    (hllm : env.gen.llm = Except.ok raw)
    (hsan : clean_sql_query raw = "ERROR:" ++ suffix) :
    generate_sql env.gen =
      Except.error (SqlGenError.ambiguousQuery (pyStrip suffix)) ∧
    (env.connect = Except.ok () →
      (stream_generate env).events =
        [SEv.status "准备中", SEv.status "解析SQL",
         SEv.error ("处理查询时出错: " ++ ("无法生成SQL: " ++ pyStrip suffix))] ∧
      Stage.executeStage ∉ (stream_generate env).stages ∧
      SEv.status "执行查询" ∉ (stream_generate env).events ∧
      SEv.done ∉ (stream_generate env).events) := by
  have hstart : strStartsWith (clean_sql_query raw) "ERROR:" = true := by
    rw [hsan]
    unfold strStartsWith
    rw [String.data_append]
    exact startsWithL_self_append "ERROR:".data suffix.data
  have hdetail : pyStrip ⟨afterFirstColon (clean_sql_query raw).data⟩ = pyStrip suffix := by
    rw [hsan]
    have h1 : ("ERROR:" ++ suffix).data = "ERROR:".data ++ suffix.data :=
      String.data_append _ _
    rw [h1]
    have h2 : afterFirstColon ("ERROR:".data ++ suffix.data) = suffix.data := rfl
    rw [h2]
  have hgen : generate_sql env.gen =
      Except.error (SqlGenError.ambiguousQuery (pyStrip suffix)) := by
    simp only [generate_sql, hconn, hschema, hllm, hstart, Bool.true_eq_false,
      if_false, if_true]
    rw [if_neg (by simp [hne, hnf])]
    simp only [if_true, hdetail]
  refine ⟨hgen, ?_⟩
  intro hc
  have hev : stream_generate env =
      { events := [SEv.status "准备中", SEv.status "解析SQL",
          SEv.error ("处理查询时出错: " ++ ("无法生成SQL: " ++ pyStrip suffix))],
        stages := [Stage.connectStage, Stage.generateStage],
        propagated := some ("无法生成SQL: " ++ pyStrip suffix) } := by
    unfold stream_generate
    rw [hc, hgen]
    rfl
  rw [hev]
  refine ⟨rfl, by simp, by simp, by simp⟩

/-- C2 (witness): the sentinel theorem evaluated at a concrete environment
whose backend replies with the sentinel `ERROR: Ambiguous Query`. -/
theorem claim_C2_witness :
    generate_sql
      { connected := true, schema := Except.ok "db",
        llm := Except.ok "ERROR: Ambiguous Query" } =
      Except.error (SqlGenError.ambiguousQuery (pyStrip " Ambiguous Query")) ∧
    ((Except.ok () : Except String Unit) = Except.ok () →
      (stream_generate
        { connect := Except.ok (),
          gen := { connected := true, schema := Except.ok "db",
                   llm := Except.ok "ERROR: Ambiguous Query" },
          execute := fun _ => Except.ok [], chunks := [] }).events =
        [SEv.status "准备中", SEv.status "解析SQL",
         SEv.error ("处理查询时出错: " ++ ("无法生成SQL: " ++ pyStrip " Ambiguous Query"))] ∧
      Stage.executeStage ∉ (stream_generate
        { connect := Except.ok (),
          gen := { connected := true, schema := Except.ok "db",
                   llm := Except.ok "ERROR: Ambiguous Query" },
          execute := fun _ => Except.ok [], chunks := [] }).stages ∧
      SEv.status "执行查询" ∉ (stream_generate
        { connect := Except.ok (),
          gen := { connected := true, schema := Except.ok "db",
                   llm := Except.ok "ERROR: Ambiguous Query" },
          execute := fun _ => Except.ok [], chunks := [] }).events ∧
      SEv.done ∉ (stream_generate
        { connect := Except.ok (),
          gen := { connected := true, schema := Except.ok "db",
                   llm := Except.ok "ERROR: Ambiguous Query" },
          execute := fun _ => Except.ok [], chunks := [] }).events) :=
  claim_C2_sentinel
    { connect := Except.ok (),
      gen := { connected := true, schema := Except.ok "db",
               llm := Except.ok "ERROR: Ambiguous Query" },
      execute := fun _ => Except.ok [], chunks := [] }
    "ERROR: Ambiguous Query" " Ambiguous Query" "db"
    rfl rfl (by decide) (by decide) rfl (by decide)

/-- C4: a streaming request in which every stage succeeds (and the explanation
backend streams at least one chunk) emits exactly the staged sequence:
status(preparing 准备中), status(parsing 解析SQL), sql(query),
status(executing 执行查询), status(processing 处理结果), results(rows),
status(explaining 生成解释), one `answer_chunk` per streamed chunk (one or
more), status(done 完成), done — with no other events interleaved, and nothing
is propagated as a fault. -/
theorem claim_C4_stream_order (env : StreamEnv) (q : String) (rows : List Row)
    (hconn : env.connect = Except.ok ())
    (hgen : generate_sql env.gen = Except.ok q)
    (hexec : env.execute q = Except.ok rows)
    (hch : env.chunks ≠ []) :
    (stream_generate env).events =
      [SEv.status "准备中", SEv.status "解析SQL", SEv.sql q, SEv.status "执行查询",
       SEv.status "处理结果", SEv.results rows, SEv.status "生成解释"] ++
      env.chunks.map SEv.answer_chunk ++ [SEv.status "完成", SEv.done] ∧
    env.chunks.map SEv.answer_chunk ≠ [] ∧
    (stream_generate env).propagated = none := by
  have hev : stream_generate env =
      { events := [SEv.status "准备中", SEv.status "解析SQL", SEv.sql q,
          SEv.status "执行查询", SEv.status "处理结果", SEv.results rows,
          SEv.status "生成解释"] ++ env.chunks.map SEv.answer_chunk ++
          [SEv.status "完成", SEv.done],
        stages := [Stage.connectStage, Stage.generateStage, Stage.executeStage,
          Stage.historyStage, Stage.explainStage],
        propagated := none } := by
    unfold stream_generate
    rw [hconn, hgen]
    simp [hexec]
  rw [hev]
  exact ⟨rfl, by simp [hch], rfl⟩

/-- C4 (witness): the success sequence evaluated at a concrete environment. -/
theorem claim_C4_witness :
    (stream_generate
      { connect := Except.ok (),
        gen := { connected := true, schema := Except.ok "db",
                 llm := Except.ok "SELECT 1" },
        execute := fun _ => Except.ok [[("c", "1")]],
        chunks := ["one ", "row"] }).events =
      [SEv.status "准备中", SEv.status "解析SQL", SEv.sql "SELECT 1",
       SEv.status "执行查询", SEv.status "处理结果", SEv.results [[("c", "1")]],
       SEv.status "生成解释"] ++
      ["one ", "row"].map SEv.answer_chunk ++ [SEv.status "完成", SEv.done] ∧
    (["one ", "row"].map SEv.answer_chunk : List SEv) ≠ [] ∧
    (stream_generate
      { connect := Except.ok (),
        gen := { connected := true, schema := Except.ok "db",
                 llm := Except.ok "SELECT 1" },
        execute := fun _ => Except.ok [[("c", "1")]],
        chunks := ["one ", "row"] }).propagated = none :=
  claim_C4_stream_order
    { connect := Except.ok (),
      gen := { connected := true, schema := Except.ok "db",
               llm := Except.ok "SELECT 1" },
      execute := fun _ => Except.ok [[("c", "1")]],
      chunks := ["one ", "row"] }
    "SELECT 1" [[("c", "1")]] rfl rfl rfl (by decide)

/-- C5: in a streaming request in which some stage fails (connection, query
generation, or execution), exactly one `error` event is emitted and it is the
last event of the stream (the events are a prefix without any error followed
by the single error event), no `done` event is ever emitted, no stage is
invoked twice (no retry), and the underlying fault is propagated after the
stream closes. -/
theorem claim_C5_stream_failure (env : StreamEnv)
    (hfail : ¬ ∃ q rows, env.connect = Except.ok () ∧
      generate_sql env.gen = Except.ok q ∧ env.execute q = Except.ok rows) :
    (∃ m pre, (stream_generate env).events = pre ++ [SEv.error m] ∧
      ∀ e ∈ pre, ∀ d, e ≠ SEv.error d) ∧
    SEv.done ∉ (stream_generate env).events ∧
    (stream_generate env).stages.Nodup ∧
    (stream_generate env).propagated.isSome = true := by
  rcases hc : env.connect with m | u
  · have hev : stream_generate env =
        { events := [SEv.status "准备中", SEv.error ("处理查询时出错: " ++ m)],
          stages := [Stage.connectStage], propagated := some m } := by
      unfold stream_generate
      rw [hc]
      rfl
    rw [hev]
    refine ⟨⟨"处理查询时出错: " ++ m, [SEv.status "准备中"], rfl, by simp⟩,
      by simp, by simp, rfl⟩
  · cases u
    rcases hg : generate_sql env.gen with ge | q
    · have hev : stream_generate env =
          { events := [SEv.status "准备中", SEv.status "解析SQL",
              SEv.error ("处理查询时出错: " ++ ge.message)],
            stages := [Stage.connectStage, Stage.generateStage],
            propagated := some ge.message } := by
        unfold stream_generate
        rw [hc, hg]
        rfl
      rw [hev]
      refine ⟨⟨"处理查询时出错: " ++ ge.message,
        [SEv.status "准备中", SEv.status "解析SQL"], rfl, by simp⟩,
        by simp, by simp, rfl⟩
    · rcases he : env.execute q with m | rows
      · have hev : stream_generate env =
            { events := [SEv.status "准备中", SEv.status "解析SQL", SEv.sql q,
                SEv.status "执行查询", SEv.error ("处理查询时出错: " ++ m)],
              stages := [Stage.connectStage, Stage.generateStage,
                Stage.executeStage],
              propagated := some m } := by
          unfold stream_generate
          rw [hc, hg]
          simp [he]
        rw [hev]
        refine ⟨⟨"处理查询时出错: " ++ m,
          [SEv.status "准备中", SEv.status "解析SQL", SEv.sql q,
           SEv.status "执行查询"], rfl, by simp⟩, by simp, by simp, rfl⟩
      · exact absurd ⟨q, rows, hc, hg, he⟩ hfail

/-- C5 (witness): the failure theorem evaluated at an environment whose
execution stage fails. -/
theorem claim_C5_witness :
    (∃ m pre, (stream_generate
      { connect := Except.ok (),
        gen := { connected := true, schema := Except.ok "db",
                 llm := Except.ok "SELECT 1" },
        execute := fun _ => Except.error "boom", chunks := [] }).events =
        pre ++ [SEv.error m] ∧ ∀ e ∈ pre, ∀ d, e ≠ SEv.error d) ∧
    SEv.done ∉ (stream_generate
      { connect := Except.ok (),
        gen := { connected := true, schema := Except.ok "db",
                 llm := Except.ok "SELECT 1" },
        execute := fun _ => Except.error "boom", chunks := [] }).events ∧
    (stream_generate
      { connect := Except.ok (),
        gen := { connected := true, schema := Except.ok "db",
                 llm := Except.ok "SELECT 1" },
        execute := fun _ => Except.error "boom", chunks := [] }).stages.Nodup ∧
    (stream_generate
      { connect := Except.ok (),
        gen := { connected := true, schema := Except.ok "db",
                 llm := Except.ok "SELECT 1" },
        execute := fun _ => Except.error "boom", chunks := [] }).propagated.isSome =
      true :=
  claim_C5_stream_failure
    { connect := Except.ok (),
      gen := { connected := true, schema := Except.ok "db",
               llm := Except.ok "SELECT 1" },
      execute := fun _ => Except.error "boom", chunks := [] }
    (by rintro ⟨q, rows, h1, h2, h3⟩; exact absurd h3 (by simp))

lemma add_to_conversation_history_length (h : List ConversationTurn) (q r : String)
    (hle : h.length ≤ 10) : (add_to_conversation_history h q r).length ≤ 10 := by
  unfold add_to_conversation_history
  by_cases hge : h.length ≥ 10
  · rw [if_pos hge]
    have h10 : h.length = 10 := le_antisymm hle hge
    unfold lastN
    rw [List.length_append, List.length_drop, h10, List.length_singleton]
  · rw [if_neg hge]
    rw [List.length_append, List.length_singleton]
    omega

lemma foldl_history_length (ops : List (String × String)) :
    ∀ (h : List ConversationTurn), h.length ≤ 10 →
      (ops.foldl (fun acc p => add_to_conversation_history acc p.1 p.2) h).length ≤ 10 := by
  induction ops with
  | nil => intro h hle; exact hle
  | cons p rest ih =>
    intro h hle
    rw [List.foldl_cons]
    exact ih _ (add_to_conversation_history_length h p.1 p.2 hle)

/-- C6: conversation history built by `add_to_conversation_history` from the
empty history never exceeds 10 entries; and appending to a full history of 10
(in either the web variant `add_to_conversation_history` or the shell's
append-then-truncate variant `shellHistoryAppend`) evicts exactly the oldest
entry: the result is the remaining 9 in their original order followed by the
new turn. -/
theorem claim_C6_history_bound (ops : List (String × String))
    (h : List ConversationTurn) (q r : String) (h10 : h.length = 10) :
    (ops.foldl (fun acc p => add_to_conversation_history acc p.1 p.2) []).length ≤ 10 ∧
    add_to_conversation_history h q r = h.tail ++ [{ user := q, response := r }] ∧
    shellHistoryAppend h q r = h.tail ++ [{ user := q, response := r }] := by
  refine ⟨foldl_history_length ops [] (by simp), ?_, ?_⟩
  · unfold add_to_conversation_history
    rw [if_pos (by omega)]
    unfold lastN
    rw [h10]
    rw [show (10 - 9 : Nat) = 1 from rfl, List.drop_one]
  · unfold shellHistoryAppend
    rw [if_pos (by rw [List.length_append, h10, List.length_singleton]; omega)]
    unfold lastN
    rw [List.length_append, h10, List.length_singleton]
    rw [show (10 + 1 - 10 : Nat) = 1 from rfl]
    rw [List.drop_append_of_le_length (by omega), List.drop_one]

/-- C6 (witness): the bound and the eviction behaviour at a concrete full
history of 10 turns. -/
theorem claim_C6_witness :
    (([("q1", "r1"), ("q2", "r2")].foldl
        (fun acc p => add_to_conversation_history acc p.1 p.2) []).length ≤ 10) ∧
    add_to_conversation_history
        (List.replicate 10 { user := "u", response := "s" }) "q" "r" =
      (List.replicate 10 { user := "u", response := "s" }).tail ++
        [{ user := "q", response := "r" }] ∧
    shellHistoryAppend
        (List.replicate 10 { user := "u", response := "s" }) "q" "r" =
      (List.replicate 10 { user := "u", response := "s" }).tail ++
        [{ user := "q", response := "r" }] :=
  claim_C6_history_bound [("q1", "r1"), ("q2", "r2")]
    (List.replicate 10 { user := "u", response := "s" }) "q" "r" (by decide)

lemma lookup_cons_pos (k kp : PoolKey) (v : Nat) (rest : List (PoolKey × Nat))
    (h : k = kp) : ((kp, v) :: rest).lookup k = some v := by
  rw [List.lookup_cons, show (k == kp) = true from beq_iff_eq.mpr h]

lemma lookup_cons_neg (k kp : PoolKey) (v : Nat) (rest : List (PoolKey × Nat))
    (h : ¬ k = kp) : ((kp, v) :: rest).lookup k = rest.lookup k := by
  rw [List.lookup_cons, show (k == kp) = false from beq_eq_false_iff_ne.mpr h]

lemma lookup_filter_ne (k : PoolKey) (l : List (PoolKey × Nat)) :
    (l.filter (fun p => p.1 ≠ k)).lookup k = none := by
  induction l with
  | nil => rfl
  | cons p rest ih =>
    rw [List.filter_cons]
    by_cases hp : p.1 = k
    · rw [if_neg (by simp [hp])]
      exact ih
    · rw [if_pos (by simp [hp])]
      rw [show p = (p.1, p.2) from rfl, lookup_cons_neg k p.1 p.2 _ (fun h => hp h.symm)]
      exact ih

lemma lookup_append_none (k : PoolKey) (l1 l2 : List (PoolKey × Nat))
    (h : l1.lookup k = none) : (l1 ++ l2).lookup k = l2.lookup k := by
  induction l1 with
  | nil => rfl
  | cons p rest ih =>
    rw [List.cons_append]
    by_cases hk : k = p.1
    · rw [show p = (p.1, p.2) from rfl, lookup_cons_pos k p.1 p.2 _ hk] at h
      exact absurd h (by simp)
    · rw [show p = (p.1, p.2) from rfl, lookup_cons_neg k p.1 p.2 _ hk] at h
      rw [show p = (p.1, p.2) from rfl, lookup_cons_neg k p.1 p.2 _ hk]
      exact ih h

lemma lookup_self_append (k : PoolKey) (v : Nat) (l : List (PoolKey × Nat))
    (h : l.lookup k = none) : (l ++ [(k, v)]).lookup k = some v := by
  rw [lookup_append_none k l [(k, v)] h]
  exact lookup_cons_pos k k v [] rfl

lemma lookup_mem_pool (k : PoolKey) (v : Nat) :
    ∀ (l : List (PoolKey × Nat)), l.lookup k = some v → (k, v) ∈ l := by
  intro l
  induction l with
  | nil => intro h; exact absurd h (by simp [List.lookup])
  | cons p rest ih =>
    intro h
    by_cases hk : k = p.1
    · rw [show p = (p.1, p.2) from rfl, lookup_cons_pos k p.1 p.2 _ hk] at h
      simp only [Option.some.injEq] at h
      have hkv : (k, v) = p := by
        rw [hk, ← h]
      rw [hkv]
      exact List.mem_cons_self _ _
    · rw [show p = (p.1, p.2) from rfl, lookup_cons_neg k p.1 p.2 _ hk] at h
      exact List.mem_cons_of_mem p (ih h)

lemma get_or_create_eq_found (alive : Nat → Bool) (st : AppState) (sid : String)
    (cfg : DBConfig) (c : Nat)
    (h : st.entries.lookup (sid, connection_key cfg) = some c) :
    get_or_create_connection alive st sid cfg =
      if alive c then (c, st)
      else (st.next,
        { entries := (st.entries.filter
            (fun p => p.1 ≠ (sid, connection_key cfg))) ++
            [((sid, connection_key cfg), st.next)],
          next := st.next + 1 }) := by
  unfold get_or_create_connection
  simp only []
  rw [h]

lemma get_or_create_eq_absent (alive : Nat → Bool) (st : AppState) (sid : String)
    (cfg : DBConfig)
    (h : st.entries.lookup (sid, connection_key cfg) = none) :
    get_or_create_connection alive st sid cfg =
      (st.next,
        { entries := st.entries ++ [((sid, connection_key cfg), st.next)],
          next := st.next + 1 }) := by
  unfold get_or_create_connection
  simp only []
  rw [h]

lemma get_or_create_spec (alive : Nat → Bool) (st : AppState) (sid : String)
    (cfg : DBConfig) (hwf : PoolWf st) :
    ((get_or_create_connection alive st sid cfg).2).entries.lookup
        (sid, connection_key cfg) =
      some (get_or_create_connection alive st sid cfg).1 ∧
    PoolWf (get_or_create_connection alive st sid cfg).2 ∧
    (get_or_create_connection alive st sid cfg).1 <
      (get_or_create_connection alive st sid cfg).2.next := by
  rcases hl : st.entries.lookup (sid, connection_key cfg) with _ | c
  · rw [get_or_create_eq_absent alive st sid cfg hl]
    refine ⟨lookup_self_append _ _ _ hl, ?_, ?_⟩
    · intro p hp
      rcases List.mem_append.mp hp with h' | h'
      · have := hwf p h'
        show p.2 < st.next + 1
        omega
      · simp only [List.mem_singleton] at h'
        rw [h']
        show st.next < st.next + 1
        omega
    · show st.next < st.next + 1
      omega
  · rw [get_or_create_eq_found alive st sid cfg c hl]
    by_cases ha : alive c
    · rw [if_pos ha]
      refine ⟨hl, hwf, ?_⟩
      exact hwf _ (lookup_mem_pool _ c st.entries hl)
    · rw [if_neg ha]
      refine ⟨lookup_self_append _ _ _ (lookup_filter_ne _ _), ?_, ?_⟩
      · intro p hp
        rcases List.mem_append.mp hp with h' | h'
        · have := hwf p (List.mem_of_mem_filter h')
          show p.2 < st.next + 1
          omega
        · simp only [List.mem_singleton] at h'
          rw [h']
          show st.next < st.next + 1
          omega
      · show st.next < st.next + 1
        omega

/-- C7: with a well-formed pool, acquiring twice under the same session with
configs that agree on every field except possibly the password (so their
fingerprints coincide): if the first returned connection passes the liveness
check, the second acquisition returns the identical pooled connection and
leaves the pool untouched; if the liveness check fails, the stale entry is
discarded and the second acquisition returns a distinct, newly created
connection stored under the same key. -/
theorem claim_C7_pooling (alive : Nat → Bool) (st : AppState) (sid : String)
    (c1 c2 : DBConfig) (hwf : PoolWf st)
    (hh : c1.host = c2.host) (hp : c1.port = c2.port)
    (hu : c1.username = c2.username) (hd : c1.database = c2.database) :
    (alive (get_or_create_connection alive st sid c1).1 = true →
      get_or_create_connection alive
          (get_or_create_connection alive st sid c1).2 sid c2 =
        ((get_or_create_connection alive st sid c1).1,
         (get_or_create_connection alive st sid c1).2)) ∧
    (alive (get_or_create_connection alive st sid c1).1 = false →
      (get_or_create_connection alive
          (get_or_create_connection alive st sid c1).2 sid c2).1 ≠
        (get_or_create_connection alive st sid c1).1 ∧
      (get_or_create_connection alive
          (get_or_create_connection alive st sid c1).2 sid c2).2.entries.lookup
          (sid, connection_key c2) =
        some (get_or_create_connection alive
          (get_or_create_connection alive st sid c1).2 sid c2).1) := by
  have hkey : connection_key c1 = connection_key c2 := by
    unfold connection_key
    rw [hh, hp, hu, hd]
  obtain ⟨hlook, hwf1, hlt⟩ := get_or_create_spec alive st sid c1 hwf
  rw [hkey] at hlook
  constructor
  · intro halive
    rw [get_or_create_eq_found alive _ sid c2 _ hlook, if_pos halive]
  · intro hdead
    constructor
    · rw [get_or_create_eq_found alive _ sid c2 _ hlook, if_neg (by simp [hdead])]
      show (get_or_create_connection alive st sid c1).2.next ≠
        (get_or_create_connection alive st sid c1).1
      omega
    · rw [get_or_create_eq_found alive _ sid c2 _ hlook, if_neg (by simp [hdead])]
      exact lookup_self_append _ _ _ (lookup_filter_ne _ _)

/-- C7 (witness): the pooling theorem evaluated twice at a concrete session,
pool and config pair differing only in the password — once with a liveness
oracle that accepts every connection (same instance returned) and once with
one that rejects every connection (a distinct fresh instance stored under the
same key). -/
theorem claim_C7_witness :
    (get_or_create_connection (fun _ => true)
        (get_or_create_connection (fun _ => true)
          { entries := [], next := 0 } "s"
          { host := "h", port := "3306", username := "u", password := "a",
            database := some "db" }).2 "s"
        { host := "h", port := "3306", username := "u", password := "b",
          database := some "db" } =
      ((get_or_create_connection (fun _ => true) { entries := [], next := 0 } "s"
          { host := "h", port := "3306", username := "u", password := "a",
            database := some "db" }).1,
       (get_or_create_connection (fun _ => true) { entries := [], next := 0 } "s"
          { host := "h", port := "3306", username := "u", password := "a",
            database := some "db" }).2)) ∧
    ((get_or_create_connection (fun _ => false)
        (get_or_create_connection (fun _ => false)
          { entries := [], next := 0 } "s"
          { host := "h", port := "3306", username := "u", password := "a",
            database := some "db" }).2 "s"
        { host := "h", port := "3306", username := "u", password := "b",
          database := some "db" }).1 ≠
      (get_or_create_connection (fun _ => false) { entries := [], next := 0 } "s"
        { host := "h", port := "3306", username := "u", password := "a",
          database := some "db" }).1) := by
  constructor
  · exact (claim_C7_pooling (fun _ => true) { entries := [], next := 0 } "s"
      { host := "h", port := "3306", username := "u", password := "a",
        database := some "db" }
      { host := "h", port := "3306", username := "u", password := "b",
        database := some "db" }
      (by intro p hp; simp at hp) rfl rfl rfl rfl).1 rfl
  · exact ((claim_C7_pooling (fun _ => false) { entries := [], next := 0 } "s"
      { host := "h", port := "3306", username := "u", password := "a",
        database := some "db" }
      { host := "h", port := "3306", username := "u", password := "b",
        database := some "db" }
      (by intro p hp; simp at hp) rfl rfl rfl rfl).2 rfl).1

/-- C8: whenever the enhanced-snapshot attempt fails at any step, the function
`get_enhanced_database_structure` does not propagate the failure (its result
type has no failure case) but instead returns exactly what the reduced
structural dump `get_database_structure_with_samples` (tables, columns and
sample rows only, no relationship or diagnostic data) produces; and the
example failure of the claim — listing tables fails after the database name
resolves — is indeed such a failing step. -/
theorem claim_C8_fallback (o : SchemaOracle) :
    ((∃ e, enhancedAttempt o = Except.error e) →
      get_enhanced_database_structure o =
        StructureResult.text (get_database_structure_with_samples o)) ∧
    (∀ d m, o.database = Except.ok (some d) → o.listTables = Except.error m →
      enhancedAttempt o = Except.error m) := by
  constructor
  · rintro ⟨e, he⟩
    unfold get_enhanced_database_structure
    rw [he]
  · intro d m hdb hlt
    unfold enhancedAttempt
    rw [hdb]
    simp only [Except.bind]
    rw [hlt]
    rfl

/-- C8 (witness): at an oracle whose table listing fails, the enhanced
structure call returns the reduced dump rather than an error. -/
theorem claim_C8_witness :
    get_enhanced_database_structure
      { database := Except.ok (some "shop"), listTables := Except.error "boom",
        showCreate := fun _ => Except.error "x",
        describeT := fun _ => Except.error "x",
        countRows := fun _ => Except.error "x",
        sampleRows := fun _ => Except.error "x" } =
      StructureResult.text (get_database_structure_with_samples
        { database := Except.ok (some "shop"), listTables := Except.error "boom",
          showCreate := fun _ => Except.error "x",
          describeT := fun _ => Except.error "x",
          countRows := fun _ => Except.error "x",
          sampleRows := fun _ => Except.error "x" }) :=
  (claim_C8_fallback
    { database := Except.ok (some "shop"), listTables := Except.error "boom",
      showCreate := fun _ => Except.error "x",
      describeT := fun _ => Except.error "x",
      countRows := fun _ => Except.error "x",
      sampleRows := fun _ => Except.error "x" }).1
    ⟨"boom", (claim_C8_fallback
      { database := Except.ok (some "shop"), listTables := Except.error "boom",
        showCreate := fun _ => Except.error "x",
        describeT := fun _ => Except.error "x",
        countRows := fun _ => Except.error "x",
        sampleRows := fun _ => Except.error "x" }).2 "shop" "boom" rfl rfl⟩

/-- C9 (amended): the schema diagnostics assign the star/snowflake label
exactly when the set of table names with more than one incoming relationship
edge — edges counted with multiplicity, so two foreign keys from the same
table (or a self-reference) count separately, which is where the original
claim's "referenced by more than one other table" fails — is non-empty and
numbers fewer than one third of the tables.  (The source's additional
`len(tables) > 2` guard is subsumed: with at most two tables the right-hand
side is impossible.) -/
theorem claim_C9_star_label (tables : List TableInfo) (rels : List RelEdge) :
    (analyze_database_schema tables rels).schema_type = "星型模式或雪花模式" ↔
      centerTables rels ≠ [] ∧ 3 * (centerTables rels).length < tables.length := by
  show schemaTypeLabel tables rels = _ ↔ _
  unfold schemaTypeLabel
  by_cases h2 : tables.length > 2
  · rw [if_pos h2]
    by_cases hc : centerTables rels ≠ [] ∧ 3 * (centerTables rels).length < tables.length
    · rw [if_pos hc]
      simp [hc]
    · rw [if_neg hc]
      constructor
      · intro h
        exact absurd h (by decide)
      · intro h
        exact absurd h hc
  · rw [if_neg h2]
    constructor
    · intro h
      exact absurd h (by decide)
    · rintro ⟨hne, hlt⟩
      have h1 : 1 ≤ (centerTables rels).length := List.length_pos.mpr hne
      omega

/-- C9 (counterexample to the claim as stated): four tables where table B is
referenced by two edges both coming from the single table A — the code counts
edges, so B is a center table and the star/snowflake label is assigned, while
the claim's condition ("referenced by more than one other table") is false,
since only one other table references B. -/
theorem claim_C9_counterexample :
    (analyze_database_schema
      [{ name := "A", columns := [], primary_key := some "id", foreign_keys := [],
         indexes := [], row_count := 0, sample_data := [] },
       { name := "B", columns := [], primary_key := some "id", foreign_keys := [],
         indexes := [], row_count := 0, sample_data := [] },
       { name := "C", columns := [], primary_key := some "id", foreign_keys := [],
         indexes := [], row_count := 0, sample_data := [] },
       { name := "D", columns := [], primary_key := some "id", foreign_keys := [],
         indexes := [], row_count := 0, sample_data := [] }]
      [{ from_table := "A", from_column := "x", to_table := "B", to_column := "id" },
       { from_table := "A", from_column := "y", to_table := "B", to_column := "id2" }]).schema_type =
      "星型模式或雪花模式" ∧
    ¬ SpecStarCondition
      [{ name := "A", columns := [], primary_key := some "id", foreign_keys := [],
         indexes := [], row_count := 0, sample_data := [] },
       { name := "B", columns := [], primary_key := some "id", foreign_keys := [],
         indexes := [], row_count := 0, sample_data := [] },
       { name := "C", columns := [], primary_key := some "id", foreign_keys := [],
         indexes := [], row_count := 0, sample_data := [] },
       { name := "D", columns := [], primary_key := some "id", foreign_keys := [],
         indexes := [], row_count := 0, sample_data := [] }]
      [{ from_table := "A", from_column := "x", to_table := "B", to_column := "id" },
       { from_table := "A", from_column := "y", to_table := "B", to_column := "id2" }] := by
  constructor
  · rfl
  · intro h
    obtain ⟨hne, _⟩ := h
    exact hne (by rfl)

lemma isPrefixOf_self_append (p b : List Char) : p.isPrefixOf (p ++ b) = true :=
  List.isPrefixOf_iff_prefix.mpr ⟨b, rfl⟩

lemma countSub_pos (pat s : List Char) (h : pat.isPrefixOf s = true) :
    1 ≤ countSub pat s := by
  rcases s with _ | ⟨c, rest⟩
  · rw [countSub]
    have hp : pat = [] := List.prefix_nil.mp (List.isPrefixOf_iff_prefix.mp h)
    rw [hp]
    simp
  · rw [countSub, if_pos h]
    omega

lemma countSub_le_append (pat : List Char) :
    ∀ (a t : List Char), countSub pat t ≤ countSub pat (a ++ t) := by
  intro a
  induction a with
  | nil => intro t; rw [List.nil_append]
  | cons c a' ih =>
    intro t
    rw [List.cons_append, countSub]
    have := ih t
    omega

lemma countSub_two (pat s a b a' b' : List Char) (hs : s = a ++ (pat ++ b))
    (hs' : s = a' ++ (pat ++ b')) (hlen : a.length < a'.length) :
    2 ≤ countSub pat s := by
  have hsplit : ∃ c, a' = a ++ c ∧ c ≠ [] := by
    rcases List.append_eq_append_iff.mp (hs ▸ hs' : a ++ (pat ++ b) = a' ++ (pat ++ b'))
      with ⟨c, hc1, _⟩ | ⟨c, hc1, _⟩
    · refine ⟨c, hc1, ?_⟩
      intro hcnil
      rw [hcnil, List.append_nil] at hc1
      rw [hc1] at hlen
      omega
    · have : a'.length ≤ a.length := by
        rw [hc1, List.length_append]
        omega
      omega
  obtain ⟨c, hc, hcne⟩ := hsplit
  have hmid : pat ++ b = c ++ (pat ++ b') := by
    have h3 : a ++ (pat ++ b) = (a ++ c) ++ (pat ++ b') := by rw [← hc, ← hs', hs]
    rw [List.append_assoc] at h3
    exact List.append_cancel_left h3
  calc 2 ≤ countSub pat (pat ++ b) := by
        rcases c with _ | ⟨c0, c'⟩
        · exact absurd rfl hcne
        · rw [hmid, List.cons_append, countSub]
          have h1 : pat.isPrefixOf (c0 :: (c' ++ (pat ++ b'))) = true := by
            rw [← List.cons_append, ← hmid]
            exact isPrefixOf_self_append pat b
          rw [if_pos h1]
          have h2 : 1 ≤ countSub pat (pat ++ b') :=
            countSub_pos pat _ (isPrefixOf_self_append pat b')
          have h3 : countSub pat (pat ++ b') ≤ countSub pat (c' ++ (pat ++ b')) :=
            countSub_le_append pat c' _
          omega
    _ ≤ countSub pat (a ++ (pat ++ b)) := countSub_le_append pat a _
    _ = countSub pat s := by rw [hs]

lemma countSub_unique (pat s a b a' b' : List Char) (hcount : countSub pat s = 1)
    (hs : s = a ++ (pat ++ b)) (hs' : s = a' ++ (pat ++ b')) : a = a' := by
  rcases Nat.lt_trichotomy a.length a'.length with h | h | h
  · have := countSub_two pat s a b a' b' hs hs' h
    omega
  · exact (List.append_inj (hs ▸ hs' : a ++ (pat ++ b) = a' ++ (pat ++ b')) h).1
  · have := countSub_two pat s a' b' a b hs' hs h
    omega

lemma pkAt_sound (s g : List Char) (h : pkAt s = some g) :
    ∃ b, s = "PRIMARY KEY (`".data ++ (g ++ ('`' :: ')' :: b)) ∧ g ≠ [] ∧
      ∀ c ∈ g, c ≠ '`' := by
  unfold pkAt at h
  split at h
  · exact absurd h (by simp)
  · next r hl =>
    split at h
    · next b' heq =>
      by_cases hg : r.takeWhile (fun c => c ≠ '`') = []
      · rw [if_pos hg] at h
        exact absurd h (by simp)
      · rw [if_neg hg] at h
        simp only [Option.some.injEq] at h
        subst h
        refine ⟨b', ?_, hg, ?_⟩
        · rw [(litP_iff _ s r).mp hl]
          congr 1
          rw [← heq]
          exact (List.takeWhile_append_dropWhile _ r).symm
        · intro c hc
          have := List.mem_takeWhile_imp hc
          simpa using this
    · exact absurd h (by simp)

lemma pkSearch_sound : ∀ (s g : List Char), pkSearch s = some g →
    ∃ a b, s = a ++ ("PRIMARY KEY (`".data ++ (g ++ ('`' :: ')' :: b))) ∧
      g ≠ [] ∧ ∀ c ∈ g, c ≠ '`' := by
  intro s
  induction s with
  | nil => intro g h; exact absurd h (by simp [pkSearch])
  | cons c rest ih =>
    intro g h
    rw [pkSearch] at h
    rcases hat : pkAt (c :: rest) with _ | g'
    · rw [hat] at h
      obtain ⟨a, b, hs, hgne, hbt⟩ := ih g h
      exact ⟨c :: a, b, by rw [List.cons_append, ← hs], hgne, hbt⟩
    · rw [hat] at h
      simp only [Option.some.injEq] at h
      subst h
      obtain ⟨b, hs, hgne, hbt⟩ := pkAt_sound _ g' hat
      exact ⟨[], b, by rw [List.nil_append, hs], hgne, hbt⟩

lemma first_backtick : ∀ (x y u v : List Char), (∀ c ∈ x, c ≠ '`') →
    (∀ c ∈ y, c ≠ '`') → x ++ '`' :: u = y ++ '`' :: v → x = y ∧ u = v := by
  intro x
  induction x with
  | nil =>
    intro y u v _ hy h
    rcases y with _ | ⟨d, y'⟩
    · rw [List.nil_append, List.nil_append] at h
      injection h with _ h2
      exact ⟨rfl, h2⟩
    · rw [List.nil_append, List.cons_append] at h
      injection h with h1 _
      exact absurd h1.symm (hy d (List.mem_cons_self _ _))
  | cons c x' ih =>
    intro y u v hx hy h
    rcases y with _ | ⟨d, y'⟩
    · rw [List.nil_append, List.cons_append] at h
      injection h with h1 _
      exact absurd h1 (hx c (List.mem_cons_self _ _))
    · rw [List.cons_append, List.cons_append] at h
      injection h with h1 h2
      obtain ⟨hxy, huv⟩ := ih y' u v (fun e he => hx e (List.mem_cons_of_mem _ he))
        (fun e he => hy e (List.mem_cons_of_mem _ he)) h2
      exact ⟨by rw [h1, hxy], huv⟩

/-- C10: a `CREATE TABLE` statement declaring a composite (multi-column)
primary key — so the text after `PRIMARY KEY (` is a backtick-quoted column
followed by a comma and a further quoted column, and the pattern head
occurs nowhere else — defeats the single-column extraction regex
`PRIMARY KEY \(`([^`]+)`\)`: `extractPK` finds no match, `buildTableInfo`
records the table's primary key as absent, and `analyze_database_schema`
consequently reports the table among those lacking a primary key. -/
theorem claim_C10_composite_pk (o : SchemaOracle) (t : String)
    (pre c1 rest : List Char) (ct : String) (ti : TableInfo)
    (hct : o.showCreate t = Except.ok ct)
    (hdata : ct.data =
      pre ++ ("PRIMARY KEY (`".data ++ (c1 ++ '`' :: ',' :: '`' :: rest)))
    (hbt : ∀ c ∈ c1, c ≠ '`')
    (huniq : countSub "PRIMARY KEY (`".data ct.data = 1)
    (hti : buildTableInfo o t = Except.ok ti)
    (tables : List TableInfo) (rels : List RelEdge) (hmem : ti ∈ tables) :
    extractPK ct = none ∧ ti.primary_key = none ∧
      ti.name ∈ tablesWithoutPk tables ∧
      noPkMsg tables ∈ (analyze_database_schema tables rels).potential_issues := by
  have hsearch : pkSearch ct.data = none := by
    rcases h : pkSearch ct.data with _ | g
    · rfl
    · exfalso
      obtain ⟨a, b, hs, hgne, hgbt⟩ := pkSearch_sound _ g h
      have ha : a = pre :=
        countSub_unique "PRIMARY KEY (`".data ct.data a _ pre _ huniq hs hdata
      rw [ha] at hs
      have h2 : "PRIMARY KEY (`".data ++ (g ++ '`' :: ')' :: b) =
          "PRIMARY KEY (`".data ++ (c1 ++ '`' :: ',' :: '`' :: rest) :=
        List.append_cancel_left (hs.symm.trans hdata)
      have h3 : g ++ '`' :: ')' :: b = c1 ++ '`' :: ',' :: '`' :: rest :=
        List.append_cancel_left h2
      obtain ⟨_, hub⟩ :=
        first_backtick g c1 (')' :: b) (',' :: '`' :: rest) hgbt hbt h3
      injection hub with hpc _
      exact absurd hpc (by decide)
  have hnone : extractPK ct = none := by
    unfold extractPK
    rw [hsearch]
    rfl
  have hpknone : ti.primary_key = none := by
    unfold buildTableInfo at hti
    rw [hct] at hti
    rcases hd : o.describeT t with e | cols
    · simp only [hd] at hti
      have hcontra : (Except.error e : Except String TableInfo) = Except.ok ti := hti
      exact Except.noConfusion hcontra
    · simp only [hd] at hti
      have h5 := Except.ok.inj hti
      rw [← h5]
      exact hnone
  have hmemName : ti.name ∈ tablesWithoutPk tables := by
    unfold tablesWithoutPk
    exact List.mem_map.mpr
      ⟨ti, List.mem_filter.mpr ⟨hmem, by rw [hpknone]; rfl⟩, rfl⟩
  refine ⟨hnone, hpknone, hmemName, ?_⟩
  have hneTw : tablesWithoutPk tables ≠ [] := by
    intro h0
    rw [h0] at hmemName
    exact absurd hmemName (List.not_mem_nil _)
  show noPkMsg tables ∈
    (if tablesWithoutPk tables ≠ [] then [noPkMsg tables] else []) ++
    (if isolatedTables tables rels ≠ [] then [isolatedMsg tables rels] else [])
  rw [if_pos hneTw]
  exact List.mem_append_left _ (List.mem_singleton.mpr rfl)

/-- Concrete instance for C10: the two-column key `PRIMARY KEY (`a`,`b`)` in a
creation statement yields no extracted primary key, and the table is reported
as lacking one. -/
theorem claim_C10_witness :
    extractPK "CREATE TABLE `t` (`a` int, `b` int, PRIMARY KEY (`a`,`b`))" = none ∧
      (⟨"t", [], none, [], [], 0, []⟩ : TableInfo).primary_key = none ∧
      (⟨"t", [], none, [], [], 0, []⟩ : TableInfo).name ∈
        tablesWithoutPk [⟨"t", [], none, [], [], 0, []⟩] ∧
      noPkMsg [⟨"t", [], none, [], [], 0, []⟩] ∈
        (analyze_database_schema [⟨"t", [], none, [], [], 0, []⟩] []).potential_issues :=
  claim_C10_composite_pk
    ⟨Except.ok (some "d"), Except.ok ["t"],
     fun _ => Except.ok "CREATE TABLE `t` (`a` int, `b` int, PRIMARY KEY (`a`,`b`))",
     fun _ => Except.ok [], fun _ => Except.error "", fun _ => Except.error ""⟩
    "t"
    "CREATE TABLE `t` (`a` int, `b` int, ".data ['a'] "b`))".data
    "CREATE TABLE `t` (`a` int, `b` int, PRIMARY KEY (`a`,`b`))"
    ⟨"t", [], none, [], [], 0, []⟩
    rfl rfl (by decide) (by decide) rfl
    [⟨"t", [], none, [], [], 0, []⟩] [] (List.mem_singleton.mpr rfl)
